import Mathlib

/-!
# Dimension publisher and dimension test utilities

A shallow embedding of

* `src/view/draggable-dimension-publisher/draggable-dimension-publisher.jsx`
  (the `DraggableDimensionPublisher` component: `publish`, `unpublish`,
  `getDimension`), and
* `test/utils/dimension.js` (`getDraggableDimension`, `getDroppableDimension`,
  `shiftDraggables`).

Conventions of the embedding:

* JavaScript numbers (pixels, indices) are exact integers (`Int`). Arithmetic on
  integer-valued doubles below `2^53` in magnitude is exact, so the model is
  faithful there; `NaN` is not modelled. Properties that chain several additions
  on one number (additivity of shifts, the scroll round trip) depend on rounding:
  they are stated on a second embedding of the same geometry on IEEE doubles
  (`Double` with round-to-nearest-even `+` and `-`, namespace `Float64`).
* Heap objects that the code compares with `===` carry the address they were
  allocated at (`Ref`); `===` on them is equality of addresses.
* A method returns `Except Error (result × List Effect)`: either it throws, or
  it completes with a result and the list of observable effects it performed
  (calls on the dimension marshal, console output), oldest first.
* A plain JavaScript object used as a map is the list of its own enumerable
  properties in `Object.keys` order (`JSObject`).
-/

namespace Dnd

/-! ## Data model -/

abbrev DraggableId := String
abbrev DroppableId := String
abbrev TypeId := String

/-- The `Position` type of `css-box-model`: a two-dimensional vector. -/
structure Position where
  x : Int
  y : Int
  deriving DecidableEq, Repr

/-- The `Spacing` type of `css-box-model`: four edges. -/
structure Spacing where
  top : Int
  right : Int
  bottom : Int
  left : Int
  deriving DecidableEq, Repr

/-- The `Rect` type of `css-box-model`: four edges with the derived width and
height (the derived `center`, `x` and `y` are not read by the code embedded
here and are left out). -/
structure Rect where
  top : Int
  right : Int
  bottom : Int
  left : Int
  width : Int
  height : Int
  deriving DecidableEq, Repr

/-- A `Rect` read where a `Spacing` is expected (only the four edges are read). -/
def Rect.toSpacing (r : Rect) : Spacing :=
  { top := r.top, right := r.right, bottom := r.bottom, left := r.left }

/-- The `BoxModel` type of `css-box-model`. -/
structure BoxModel where
  marginBox : Rect
  borderBox : Rect
  paddingBox : Rect
  contentBox : Rect
  margin : Spacing
  border : Spacing
  padding : Spacing
  deriving DecidableEq, Repr

/-- The `BoxSizing` type: the two string literals `border-box` and `content-box`. -/
inductive BoxSizing where
  | borderBox
  | contentBox
  deriving DecidableEq, Repr

structure DraggableDescriptor where
  id : DraggableId
  index : Int
  droppableId : DroppableId
  type : TypeId
  deriving DecidableEq, Repr

structure Placeholder where
  client : BoxModel
  tagName : String
  display : String
  boxSizing : BoxSizing
  deriving DecidableEq, Repr

structure DraggableDimension where
  descriptor : DraggableDescriptor
  boxSizing : BoxSizing
  placeholder : Placeholder
  client : BoxModel
  page : BoxModel
  deriving DecidableEq, Repr

/-! ## `src/state/position` and `css-box-model` -/

/-- Modelled from the spec: `negate` of `src/state/position`, which is not among
the sources; section 3 of the spec: component-wise arithmetic on positions. -/
def negate (point : Position) : Position :=
  { x := -point.x, y := -point.y }

/-- Modelled from the spec: `add` of `src/state/position`, which is not among
the sources; section 3 of the spec: component-wise arithmetic on positions. -/
def add (point1 point2 : Position) : Position :=
  { x := point1.x + point2.x, y := point1.y + point2.y }

/-- Modelled from the spec: `noSpacing` of `src/state/spacing` (and the default
of `createBox`), the spacing that is zero on every edge. -/
def noSpacing : Spacing :=
  { top := 0, right := 0, bottom := 0, left := 0 }

/-- Modelled from the spec: `getRect` of `css-box-model`, which is a dependency
and not among the sources: a rectangle from its four edges. -/
def getRect (s : Spacing) : Rect :=
  { top := s.top, right := s.right, bottom := s.bottom, left := s.left,
    width := s.right - s.left, height := s.bottom - s.top }

/-- Modelled from the spec: growing a rectangle outwards by a spacing (border box
to margin box). -/
def expand (target expandBy : Spacing) : Spacing :=
  { top := target.top - expandBy.top,
    left := target.left - expandBy.left,
    bottom := target.bottom + expandBy.bottom,
    right := target.right + expandBy.right }

/-- Modelled from the spec: shrinking a rectangle inwards by a spacing (border box
to padding box to content box). -/
def shrink (target shrinkBy : Spacing) : Spacing :=
  { top := target.top + shrinkBy.top,
    left := target.left + shrinkBy.left,
    bottom := target.bottom - shrinkBy.bottom,
    right := target.right - shrinkBy.right }

/-- Modelled from the spec: translation of the four edges by a vector; this is
also `offsetByPosition` of `src/state/spacing`, which is not among the sources
(section 4.3 of the spec: translate the border box by `amount`). -/
def offsetByPosition (spacing : Spacing) (point : Position) : Spacing :=
  { top := spacing.top + point.y,
    left := spacing.left + point.x,
    bottom := spacing.bottom + point.y,
    right := spacing.right + point.x }

/-- Modelled from the spec: `createBox` of `css-box-model`, which is a dependency
and not among the sources; sections 3 and 4.1 of the spec: from a border box and
the margin, border and padding spacings (each defaulting to zero) the four nested
rectangles margin box, border box, padding box, content box. -/
def createBox (borderBox : Spacing) (margin border padding : Option Spacing) : BoxModel :=
  let margin := margin.getD noSpacing
  let border := border.getD noSpacing
  let padding := padding.getD noSpacing
  let marginBox := getRect (expand borderBox margin)
  let paddingBox := getRect (shrink borderBox border)
  let contentBox := getRect (shrink paddingBox.toSpacing padding)
  { marginBox := marginBox,
    borderBox := getRect borderBox,
    paddingBox := paddingBox,
    contentBox := contentBox,
    margin := margin,
    border := border,
    padding := padding }

/-- Modelled from the spec: `offset` of `css-box-model`, which is a dependency and
not among the sources; section 4.1 of the spec: translates a box's border
rectangle by `delta` and rebuilds all nested rectangles from it. -/
def offset (original : BoxModel) (change : Position) : BoxModel :=
  createBox (offsetByPosition original.borderBox.toSpacing change)
    (some original.margin) (some original.border) (some original.padding)

/-- Modelled from the spec: `withScroll` of `css-box-model` with its scroll
argument supplied; section 4.1 of the spec: translates every rectangle of the box
by `scroll`, producing the page box from the client box. -/
def withScroll (original : BoxModel) (scroll : Position) : BoxModel :=
  offset original scroll

/-! ## The DOM as read by `getDimension` -/

/-- The part of a `CSSStyleDeclaration` that is read: the twelve spacing
properties, as the pixel numbers `css-box-model` parses from them, and the
`display` and `boxSizing` strings. -/
structure CSSStyleDeclaration where
  marginTop : Int
  marginRight : Int
  marginBottom : Int
  marginLeft : Int
  paddingTop : Int
  paddingRight : Int
  paddingBottom : Int
  paddingLeft : Int
  borderTopWidth : Int
  borderRightWidth : Int
  borderBottomWidth : Int
  borderLeftWidth : Int
  display : String
  boxSizing : String
  deriving DecidableEq, Repr

/-- The part of an `HTMLElement` that is read: the result of
`getBoundingClientRect()` (its four edges), the result of
`window.getComputedStyle` on it, and its `tagName`. -/
structure HTMLElement where
  getBoundingClientRect : Spacing
  getComputedStyle : CSSStyleDeclaration
  tagName : String
  deriving DecidableEq, Repr

/-- Modelled from the spec: `calculateBox` of `css-box-model`, which is a
dependency and not among the sources; section 4.2 step 3 of the spec: the box
built from the border rectangle and the computed spacing. -/
def calculateBox (borderBox : Spacing) (styles : CSSStyleDeclaration) : BoxModel :=
  let margin : Spacing :=
    { top := styles.marginTop, right := styles.marginRight,
      bottom := styles.marginBottom, left := styles.marginLeft }
  let padding : Spacing :=
    { top := styles.paddingTop, right := styles.paddingRight,
      bottom := styles.paddingBottom, left := styles.paddingLeft }
  let border : Spacing :=
    { top := styles.borderTopWidth, right := styles.borderRightWidth,
      bottom := styles.borderBottomWidth, left := styles.borderLeftWidth }
  createBox borderBox (some margin) (some border) (some padding)

/-! ## `DraggableDimensionPublisher` -/

/-- The props of the component (`children` is only rendered and is left out). -/
structure Props where
  draggableId : DraggableId
  droppableId : DroppableId
  type : TypeId
  index : Int
  isDragging : Bool
  offset : Position
  getDraggableRef : Unit → Option HTMLElement

/-- A heap-allocated descriptor object: the address it was allocated at and its
fields. `a === b` on two such objects is `a.addr = b.addr`. -/
structure Ref where
  addr : Nat
  val : DraggableDescriptor
  deriving DecidableEq, Repr

/-- The one callback the publisher hands to the marshal: `this.getDimension`,
a property of the instance that is created once. -/
inductive Callback where
  | getDimension
  deriving DecidableEq, Repr

/-- Observable effects: the three calls on the dimension marshal and the two
kinds of console output. -/
inductive Effect where
  | registerDraggable (descriptor : Ref) (callback : Callback)
  | updateDraggable (previous next : Ref) (callback : Callback)
  | unregisterDraggable (descriptor : Ref)
  | consoleError (message : String)
  | consoleLog (message : String) (value : Position)
  deriving DecidableEq, Repr

/-- Whether an effect is a call on the dimension marshal. -/
def Effect.isMarshalCall : Effect → Bool
  | .registerDraggable _ _ => true
  | .updateDraggable _ _ _ => true
  | .unregisterDraggable _ => true
  | .consoleError _ => false
  | .consoleLog _ _ => false

/-- The marshal calls among a list of effects. -/
def marshalCalls (effects : List Effect) : List Effect :=
  effects.filter Effect.isMarshalCall

/-- A thrown error: `tiny-invariant` failing with the given message. -/
inductive Error where
  | invariant (message : String)
  deriving DecidableEq, Repr

/-- The arguments `getMemoizedDescriptor` is called with. -/
structure MemoArgs where
  id : DraggableId
  index : Int
  droppableId : DroppableId
  type : TypeId
  deriving DecidableEq, Repr

/-- The mutable state of one component instance: the allocation counter of the
heap it allocates descriptors on, the `lastArgs` / `lastResult` pair kept by
`memoizeOne` inside `getMemoizedDescriptor` (none before the first call), and
the field `publishedDescriptor` (`null` is `none`). -/
structure Publisher where
  nextAddr : Nat
  memo : Option (MemoArgs × Ref)
  publishedDescriptor : Option Ref
  deriving DecidableEq, Repr

/-- A freshly constructed instance: nothing memoized, `publishedDescriptor = null`. -/
def Publisher.fresh : Publisher :=
  { nextAddr := 0, memo := none, publishedDescriptor := none }

/-- The function wrapped by `memoizeOne`: the object literal
`{ id, index, droppableId, type }`. -/
def MemoArgs.toDescriptor (args : MemoArgs) : DraggableDescriptor :=
  { id := args.id, index := args.index, droppableId := args.droppableId, type := args.type }

/-- `getMemoizedDescriptor`: `memoizeOne` returns the last result object itself
when every argument is `===` to the last call's, and otherwise calls the wrapped
function, which allocates a new object, and remembers arguments and result. -/
def getMemoizedDescriptor (self : Publisher) (args : MemoArgs) : Ref × Publisher :=
  let miss : Ref × Publisher :=
    let result : Ref := { addr := self.nextAddr, val := args.toDescriptor }
    (result, { self with nextAddr := self.nextAddr + 1, memo := some (args, result) })
  match self.memo with
  | none => miss
  | some (lastArgs, lastResult) =>
    if lastArgs = args then (lastResult, self) else miss

/-- The arguments `publish` passes to `getMemoizedDescriptor`. -/
def Props.memoArgs (props : Props) : MemoArgs :=
  { id := props.draggableId, index := props.index,
    droppableId := props.droppableId, type := props.type }

/-- The method `publish`, run with the given current props. -/
def publish (props : Props) (self : Publisher) : Except Error (Publisher × List Effect) :=
  let (descriptor, self) := getMemoizedDescriptor self props.memoArgs
  match self.publishedDescriptor with
  | none =>
    .ok ({ self with publishedDescriptor := some descriptor },
         [Effect.registerDraggable descriptor Callback.getDimension])
  | some published =>
    -- No changes to the descriptor
    if descriptor.addr = published.addr then
      .ok (self, [])
    else
      .ok ({ self with publishedDescriptor := some descriptor },
           [Effect.updateDraggable published descriptor Callback.getDimension])

/-- The method `unpublish`; the current props are in scope (`this.props`) and are
not read. -/
def unpublish (_props : Props) (self : Publisher) : Except Error (Publisher × List Effect) :=
  match self.publishedDescriptor with
  | none =>
    .ok (self, [Effect.consoleError "cannot unpublish descriptor when none is published"])
  | some published =>
    .ok ({ self with publishedDescriptor := none }, [Effect.unregisterDraggable published])

/-- The immediately invoked function that computes `change` inside
`getDimension`, with the console output it makes. -/
def getChange (props : Props) (windowScrollDiff : Position) : Position × List Effect :=
  let shift := props.offset
  let undoTransform := negate shift
  if !props.isDragging then
    (undoTransform, [])
  else
    let undoWindowScroll := negate windowScrollDiff
    (add undoTransform undoWindowScroll,
     [Effect.consoleLog "offseting dragging item by" (add undoTransform undoWindowScroll)])

/-- The string method `toLowerCase`, on the ASCII letters tag names are made of. -/
def toLowerCase (s : String) : String :=
  String.mk (s.data.map Char.toLower)

/-- The ternary that computes `boxSizing` inside `getDimension`. -/
def getBoxSizing (computedStyles : CSSStyleDeclaration) : BoxSizing :=
  if computedStyles.boxSizing = "border-box" then BoxSizing.borderBox else BoxSizing.contentBox

/-- The method `getDimension` (the capture callback), run with the given current
props. -/
def getDimension (props : Props) (self : Publisher) (windowScroll windowScrollDiff : Position) :
    Except Error (DraggableDimension × List Effect) :=
  match props.getDraggableRef () with
  | none =>
    .error (Error.invariant
      "DraggableDimensionPublisher cannot calculate a dimension when not attached to the DOM")
  | some targetRef =>
    match self.publishedDescriptor with
    | none => .error (Error.invariant "Cannot get dimension for unpublished draggable")
    | some descriptor =>
      let computedStyles := targetRef.getComputedStyle
      let borderBox := targetRef.getBoundingClientRect
      let (change, logged) := getChange props windowScrollDiff
      let box := calculateBox borderBox computedStyles
      let client := offset box change
      let page := withScroll client windowScroll
      let boxSizing := getBoxSizing computedStyles
      let placeholder : Placeholder :=
        { client := client,
          tagName := toLowerCase targetRef.tagName,
          display := computedStyles.display,
          boxSizing := boxSizing }
      let dimension : DraggableDimension :=
        { descriptor := descriptor.val,
          boxSizing := boxSizing,
          placeholder := placeholder,
          client := client,
          page := page }
      .ok (dimension, logged)

/-- A lifecycle event of the component: `componentDidMount` and
`componentDidUpdate` both run `publish` with the props of that render,
`componentWillUnmount` runs `unpublish`. -/
inductive Event where
  | publish (props : Props)
  | unpublish (props : Props)

/-- One lifecycle event. -/
def step (event : Event) (self : Publisher) : Except Error (Publisher × List Effect) :=
  match event with
  | .publish props => publish props self
  | .unpublish props => unpublish props self

/-- A sequence of lifecycle events, with the effects of all of them in order. -/
def run : List Event → Publisher → Except Error (Publisher × List Effect)
  | [], self => .ok (self, [])
  | event :: events, self =>
    match step event self with
    | .error e => .error e
    | .ok (self1, effects1) =>
      match run events self1 with
      | .error e => .error e
      | .ok (self2, effects2) => .ok (self2, effects1 ++ effects2)

/-- The states an instance can be in: those a sequence of lifecycle events leads
to from a fresh instance. -/
def Reachable (self : Publisher) : Prop :=
  ∃ events effects, run events Publisher.fresh = .ok (self, effects)

/-- The descriptor `publish` computes from the props:
`{ id: draggableId, index, droppableId, type }`. -/
def Props.descriptor (props : Props) : DraggableDescriptor :=
  { id := props.draggableId, index := props.index,
    droppableId := props.droppableId, type := props.type }

/-- What every reachable state satisfies: the object remembered by `memoizeOne`
holds the fields it was called with and was allocated earlier, and a published
descriptor is that very object. -/
def Publisher.Consistent (self : Publisher) : Prop :=
  (∀ args result, self.memo = some (args, result) →
      result.val = args.toDescriptor ∧ result.addr < self.nextAddr) ∧
  (∀ published, self.publishedDescriptor = some published →
      ∃ args, self.memo = some (args, published))

/-! ## `test/utils/dimension.js` -/

/-- The part of `window` read by the default argument of `withScroll`:
`window.pageXOffset` and `window.pageYOffset`. -/
structure Window where
  pageXOffset : Int
  pageYOffset : Int
  deriving DecidableEq, Repr

/-- Modelled from the spec: `getWindowScroll` of `css-box-model`, the value of
`withScroll`'s scroll argument when the caller passes `undefined`: the current
window scroll position. -/
def getWindowScroll (window : Window) : Position :=
  { x := window.pageXOffset, y := window.pageYOffset }

/-- The function `getPlaceholder`. -/
def getPlaceholder (client : BoxModel) : Placeholder :=
  { client := client, tagName := "div", display := "block", boxSizing := BoxSizing.borderBox }

/-- The type `GetDraggableArgs`; an optional property that is absent is `none`. -/
structure GetDraggableArgs where
  descriptor : DraggableDescriptor
  borderBox : Spacing
  windowScroll : Option Position
  margin : Option Spacing
  padding : Option Spacing
  border : Option Spacing
  deriving DecidableEq, Repr

/-- The function `getDraggableDimension`, in a window with the given scroll. -/
def getDraggableDimension (window : Window) (args : GetDraggableArgs) : DraggableDimension :=
  let client := createBox args.borderBox args.margin args.border args.padding
  { descriptor := args.descriptor,
    client := client,
    boxSizing := BoxSizing.borderBox,
    page := withScroll client (args.windowScroll.getD (getWindowScroll window)),
    placeholder := getPlaceholder client }

structure DroppableDescriptor where
  id : DroppableId
  type : TypeId
  deriving DecidableEq, Repr

/-- The two directions of an axis. -/
inductive Direction where
  | vertical
  | horizontal
  deriving DecidableEq, Repr

/-- The type `ClosestSubset`. -/
structure ClosestSubset where
  borderBox : Spacing
  margin : Option Spacing
  border : Option Spacing
  padding : Option Spacing
  scrollHeight : Int
  scrollWidth : Int
  scroll : Position
  shouldClipSubject : Bool
  deriving DecidableEq, Repr

/-- The type `Closest` of `src/state/droppable-dimension`, as the object literal
in `getDroppableDimension` builds it. -/
structure Closest where
  client : BoxModel
  page : BoxModel
  scrollHeight : Int
  scrollWidth : Int
  scroll : Position
  shouldClipSubject : Bool
  deriving DecidableEq, Repr

/-- Modelled from the spec: the scrollable frame of a droppable (section 3 and
4.4 of the spec): its client and page boxes, its scroll size, its current scroll
and the clipping flag. -/
structure Scrollable where
  client : BoxModel
  page : BoxModel
  scrollWidth : Int
  scrollHeight : Int
  scroll : Position
  shouldClipSubject : Bool
  deriving DecidableEq, Repr

/-- Modelled from the spec: the `viewport` of a droppable dimension (section 3 of
the spec): the optional closest scrollable frame. -/
structure DroppableViewport where
  closestScrollable : Option Scrollable
  deriving DecidableEq, Repr

/-- Modelled from the spec: `DroppableDimension` (section 3 of the spec). -/
structure DroppableDimension where
  descriptor : DroppableDescriptor
  isEnabled : Bool
  axis : Direction
  client : BoxModel
  page : BoxModel
  viewport : DroppableViewport
  deriving DecidableEq, Repr

/-- Modelled from the spec: `getDroppableDimension` of
`src/state/droppable-dimension` (imported as `getDroppable`), which is not among
the sources; sections 3 and 4.4 of the spec: the droppable dimension made of the
given descriptor, enabled flag, direction, client and page boxes, and the closest
scrollable frame when one is given. -/
def getDroppable (descriptor : DroppableDescriptor) (isEnabled : Bool) (direction : Direction)
    (client page : BoxModel) (closest : Option Closest) : DroppableDimension :=
  { descriptor := descriptor,
    isEnabled := isEnabled,
    axis := direction,
    client := client,
    page := page,
    viewport :=
      { closestScrollable := closest.map fun c =>
          { client := c.client, page := c.page,
            scrollWidth := c.scrollWidth, scrollHeight := c.scrollHeight,
            scroll := c.scroll, shouldClipSubject := c.shouldClipSubject } } }

/-- The type `GetDroppableArgs`; an optional property that is absent is `none`. -/
structure GetDroppableArgs where
  descriptor : DroppableDescriptor
  borderBox : Spacing
  direction : Option Direction
  margin : Option Spacing
  border : Option Spacing
  padding : Option Spacing
  windowScroll : Option Position
  closest : Option ClosestSubset
  isEnabled : Option Bool
  deriving DecidableEq, Repr

/-- The function `getDroppableDimension`, in a window with the given scroll. -/
def getDroppableDimension (window : Window) (args : GetDroppableArgs) : DroppableDimension :=
  let isEnabled := args.isEnabled.getD true
  let direction := args.direction.getD Direction.vertical
  let windowScroll := args.windowScroll.getD (getWindowScroll window)
  let client := createBox args.borderBox args.margin args.border args.padding
  let page := withScroll client windowScroll
  let closestScrollable : Option Closest :=
    match args.closest with
    | none => none
    | some closest =>
      let frameClient := createBox closest.borderBox closest.margin closest.border closest.padding
      let framePage := withScroll frameClient windowScroll
      some
        { client := frameClient,
          page := framePage,
          scrollHeight := closest.scrollHeight,
          scrollWidth := closest.scrollWidth,
          scroll := closest.scroll,
          shouldClipSubject := closest.shouldClipSubject }
  getDroppable args.descriptor isEnabled direction client page closestScrollable

/-- The constant `windowScroll` of `getPreset`. -/
def getPresetWindowScroll : Position :=
  { x := 50, y := 100 }

/-- The module-level constant `windowScroll`, which is `getPreset().windowScroll`. -/
def windowScroll : Position :=
  getPresetWindowScroll

/-- The margin of `withAssortedSpacing`. -/
def withAssortedSpacingMargin : Spacing :=
  { top := 10, left := 10, bottom := 5, right := 5 }

/-- The padding of `withAssortedSpacing`. -/
def withAssortedSpacingPadding : Spacing :=
  { top := 2, left := 2, bottom := 2, right := 2 }

/-- The border of `withAssortedSpacing`. -/
def withAssortedSpacingBorder : Spacing :=
  { top := 1, left := 2, bottom := 3, right := 4 }

/-- The arguments `getPreset` builds `inHome1` from, for the vertical axis (its
start, end, cross-axis start and cross-axis end are top, bottom, left and right). -/
def inHome1Args : GetDraggableArgs :=
  { descriptor := { id := "inhome1", droppableId := "home", type := "TYPE", index := 0 },
    borderBox := { top := 10, left := 0, right := 100, bottom := 20 },
    windowScroll := some getPresetWindowScroll,
    margin := some withAssortedSpacingMargin,
    padding := some withAssortedSpacingPadding,
    border := some withAssortedSpacingBorder }

/-- The arguments `getPreset` builds `inHome2` from, for the vertical axis. -/
def inHome2Args : GetDraggableArgs :=
  { descriptor := { id := "inhome2", droppableId := "home", type := "TYPE", index := 1 },
    borderBox := { top := 30, left := 0, right := 100, bottom := 50 },
    windowScroll := some getPresetWindowScroll,
    margin := some withAssortedSpacingMargin,
    padding := some withAssortedSpacingPadding,
    border := some withAssortedSpacingBorder }

/-- The draggable `inHome1` of `getPreset` for the vertical axis. The window is
not read, as `windowScroll` is passed. -/
def inHome1 : DraggableDimension :=
  getDraggableDimension { pageXOffset := 0, pageYOffset := 0 } inHome1Args

/-- The draggable `inHome2` of `getPreset` for the vertical axis. -/
def inHome2 : DraggableDimension :=
  getDraggableDimension { pageXOffset := 0, pageYOffset := 0 } inHome2Args

/-! ### Plain objects used as maps -/

/-- A plain JavaScript object used as a map from strings: its own enumerable
properties, in the order `Object.keys` lists them. -/
abbrev JSObject (α : Type) := List (String × α)

/-- The number a property key denotes when it is an array index: a canonical
decimal numeral (no leading zero) below `2^32 - 1`. `Object.keys` lists these
keys first, in ascending numeric order. -/
def arrayIndex? (key : String) : Option Nat :=
  let cs := key.data
  if cs ≠ [] ∧ cs.all Char.isDigit = true ∧ (cs.head? ≠ some '0' ∨ cs.length = 1) then
    let n := cs.foldl (fun n c => 10 * n + (c.toNat - 48)) 0
    if n < 4294967295 then some n else none
  else
    none

/-- Whether a newly created property `key` is listed by `Object.keys` before the
existing property `other`: array indices in ascending order come first, all other
keys follow in creation order. -/
def comesBefore (key other : String) : Bool :=
  match arrayIndex? key, arrayIndex? other with
  | some i, some j => decide (i < j)
  | some _, none => true
  | none, _ => false

namespace JSObject

variable {α : Type}

/-- The expression `Object.keys(o)`. -/
def keys (o : JSObject α) : List String :=
  o.map Prod.fst

/-- The expression `o[key]`; `undefined` is `none`. -/
def get : JSObject α → String → Option α
  | [], _ => none
  | (k, v) :: rest, key => if k = key then some v else get rest key

/-- Creation of a property the object does not have yet. -/
def insertNew (key : String) (value : α) : JSObject α → JSObject α
  | [] => [(key, value)]
  | (k, v) :: rest =>
    if comesBefore key k then (key, value) :: (k, v) :: rest
    else (k, v) :: insertNew key value rest

/-- Assignment to a property the object already has: its place is kept. -/
def replace (key : String) (value : α) : JSObject α → JSObject α
  | [] => []
  | (k, v) :: rest =>
    if k = key then (k, value) :: rest else (k, v) :: replace key value rest

/-- The assignment `o[key] = value` (for a key other than `__proto__`). -/
def set (o : JSObject α) (key : String) (value : α) : JSObject α :=
  if (o.get key).isSome then o.replace key value else o.insertNew key value

end JSObject

abbrev DraggableDimensionMap := JSObject DraggableDimension

/-- The function mapped over the dimensions by `shiftDraggables`. -/
def shiftDimension (amount : Position) (indexChange : Int) (dimension : DraggableDimension) :
    DraggableDimension :=
  let borderBox := offsetByPosition dimension.client.borderBox.toSpacing amount
  let client := createBox borderBox
    (some dimension.client.margin) (some dimension.client.border) (some dimension.client.padding)
  let page := withScroll client windowScroll
  { descriptor :=
      { dimension.descriptor with index := dimension.descriptor.index + indexChange },
    boxSizing := dimension.boxSizing,
    client := client,
    page := page,
    placeholder := { dimension.placeholder with client := client } }

/-- The function `shiftDraggables`. -/
def shiftDraggables (amount : Position) (draggables : DraggableDimensionMap) (indexChange : Int) :
    DraggableDimensionMap :=
  ((JSObject.keys draggables).filterMap (fun id => JSObject.get draggables id))
    |>.map (shiftDimension amount indexChange)
    |>.foldl (fun previous current => JSObject.set previous current.descriptor.id current) []

/-! ## JavaScript numbers as IEEE doubles

The definitions above compute on exact integers. Where a property needs more
than one addition on the same number, rounding matters: the definitions below
embed the same geometry on doubles. -/

/-- A finite JavaScript number (an IEEE 754 binary64 value), held as the integer
`scaled`: its value is `scaled * 2^(-1074)`, and every finite double is such a
multiple. Infinity, NaN and the sign of zero are not modelled. -/
structure Double where
  scaled : Int
  deriving DecidableEq, Repr

/-- How often `a` can be halved before it is zero, counted on top of `count`;
`fuel` bounds the number of steps. -/
def halvings : Nat → Nat → Nat → Nat
  | 0, _, count => count
  | fuel + 1, a, count => if a = 0 then count else halvings fuel (a / 2) (count + 1)

/-- The number of binary digits of `a`. -/
def bitLength (a : Nat) : Nat :=
  halvings a a 0

/-- Rounding of an exact result to the nearest double, ties to the even
significand (the IEEE 754 default, which JavaScript uses): a number of at most 53
binary digits is kept; of a longer one the 53 leading digits are kept and the
rest is rounded off. Overflow to Infinity is not modelled. -/
def roundToDouble (n : Int) : Int :=
  let a := n.natAbs
  if bitLength a ≤ 53 then n
  else
    let k := bitLength a - 53
    let q := a >>> k
    let r := a - (q <<< k)
    let half := 1 <<< (k - 1)
    let q1 := if half < r ∨ (r = half ∧ q % 2 = 1) then q + 1 else q
    if n < 0 then -((q1 <<< k : Nat) : Int) else ((q1 <<< k : Nat) : Int)

/-- The operator `+` on numbers: the exact sum, rounded. -/
instance : Add Double :=
  ⟨fun x y => ⟨roundToDouble (x.scaled + y.scaled)⟩⟩

/-- The operator `-` on numbers: the exact difference, rounded. -/
instance : Sub Double :=
  ⟨fun x y => ⟨roundToDouble (x.scaled - y.scaled)⟩⟩

/-- The unary operator `-` on numbers, which is exact. -/
instance : Neg Double :=
  ⟨fun x => ⟨-x.scaled⟩⟩

/-- The double `mantissa * 2^exponent`, for an exponent of at least `-1074`. -/
def Double.ofParts (mantissa exponent : Int) : Double :=
  ⟨mantissa * ((1 <<< (exponent + 1074).toNat : Nat) : Int)⟩

/-- A numeral is the double of that value (exact below `2^53`). -/
instance (n : Nat) : OfNat Double n :=
  ⟨Double.ofParts n 0⟩

/-- The number is a double: rounding leaves it as it is. -/
def Double.Representable (x : Double) : Prop :=
  roundToDouble x.scaled = x.scaled

instance (x : Double) : Decidable x.Representable := by
  unfold Double.Representable
  infer_instance

/-- The sum `x + y` is computed without rounding. -/
def Double.Exact (x y : Double) : Prop :=
  roundToDouble (x.scaled + y.scaled) = x.scaled + y.scaled

instance (x y : Double) : Decidable (Double.Exact x y) := by
  unfold Double.Exact
  infer_instance

/-- None of the four additions in `(t + a) + b` and `t + (a + b)` rounds. -/
def Double.ExactTwice (t a b : Double) : Prop :=
  Double.Exact t a ∧ Double.Exact (t + a) b ∧ Double.Exact a b ∧ Double.Exact t (a + b)

instance (t a b : Double) : Decidable (Double.ExactTwice t a b) := by
  unfold Double.ExactTwice
  infer_instance

namespace Float64

/-- The `Position` type of `css-box-model`, on doubles. -/
structure Position where
  x : Double
  y : Double
  deriving DecidableEq, Repr

/-- The `Spacing` type of `css-box-model`, on doubles. -/
structure Spacing where
  top : Double
  right : Double
  bottom : Double
  left : Double
  deriving DecidableEq, Repr

/-- The `Rect` type of `css-box-model`, on doubles: four edges with the derived
width and height. -/
structure Rect where
  top : Double
  right : Double
  bottom : Double
  left : Double
  width : Double
  height : Double
  deriving DecidableEq, Repr

/-- A `Rect` read where a `Spacing` is expected (only the four edges are read). -/
def Rect.toSpacing (r : Rect) : Spacing :=
  { top := r.top, right := r.right, bottom := r.bottom, left := r.left }

/-- The `BoxModel` type of `css-box-model`, on doubles. -/
structure BoxModel where
  marginBox : Rect
  borderBox : Rect
  paddingBox : Rect
  contentBox : Rect
  margin : Spacing
  border : Spacing
  padding : Spacing
  deriving DecidableEq, Repr

structure DraggableDescriptor where
  id : DraggableId
  index : Double
  droppableId : DroppableId
  type : TypeId
  deriving DecidableEq, Repr

structure Placeholder where
  client : BoxModel
  tagName : String
  display : String
  boxSizing : BoxSizing
  deriving DecidableEq, Repr

structure DraggableDimension where
  descriptor : DraggableDescriptor
  boxSizing : BoxSizing
  placeholder : Placeholder
  client : BoxModel
  page : BoxModel
  deriving DecidableEq, Repr

/-- Modelled from the spec: `negate` of `src/state/position`, which is not among
the sources; section 3 of the spec: component-wise arithmetic on positions. -/
def negate (point : Position) : Position :=
  { x := -point.x, y := -point.y }

/-- Modelled from the spec: `add` of `src/state/position`, which is not among
the sources; section 3 of the spec: component-wise arithmetic on positions. -/
def add (point1 point2 : Position) : Position :=
  { x := point1.x + point2.x, y := point1.y + point2.y }

/-- Modelled from the spec: `noSpacing` of `src/state/spacing` (and the default
of `createBox`), the spacing that is zero on every edge. -/
def noSpacing : Spacing :=
  { top := 0, right := 0, bottom := 0, left := 0 }

/-- Modelled from the spec: `getRect` of `css-box-model`, which is a dependency
and not among the sources: a rectangle from its four edges. -/
def getRect (s : Spacing) : Rect :=
  { top := s.top, right := s.right, bottom := s.bottom, left := s.left,
    width := s.right - s.left, height := s.bottom - s.top }

/-- Modelled from the spec: growing a rectangle outwards by a spacing (border box
to margin box). -/
def expand (target expandBy : Spacing) : Spacing :=
  { top := target.top - expandBy.top,
    left := target.left - expandBy.left,
    bottom := target.bottom + expandBy.bottom,
    right := target.right + expandBy.right }

/-- Modelled from the spec: shrinking a rectangle inwards by a spacing (border box
to padding box to content box). -/
def shrink (target shrinkBy : Spacing) : Spacing :=
  { top := target.top + shrinkBy.top,
    left := target.left + shrinkBy.left,
    bottom := target.bottom - shrinkBy.bottom,
    right := target.right - shrinkBy.right }

/-- Modelled from the spec: translation of the four edges by a vector; this is
also `offsetByPosition` of `src/state/spacing`, which is not among the sources
(section 4.3 of the spec: translate the border box by `amount`). -/
def offsetByPosition (spacing : Spacing) (point : Position) : Spacing :=
  { top := spacing.top + point.y,
    left := spacing.left + point.x,
    bottom := spacing.bottom + point.y,
    right := spacing.right + point.x }

/-- Modelled from the spec: `createBox` of `css-box-model`, which is a dependency
and not among the sources; sections 3 and 4.1 of the spec: from a border box and
the margin, border and padding spacings (each defaulting to zero) the four nested
rectangles margin box, border box, padding box, content box. -/
def createBox (borderBox : Spacing) (margin border padding : Option Spacing) : BoxModel :=
  let margin := margin.getD noSpacing
  let border := border.getD noSpacing
  let padding := padding.getD noSpacing
  let marginBox := getRect (expand borderBox margin)
  let paddingBox := getRect (shrink borderBox border)
  let contentBox := getRect (shrink paddingBox.toSpacing padding)
  { marginBox := marginBox,
    borderBox := getRect borderBox,
    paddingBox := paddingBox,
    contentBox := contentBox,
    margin := margin,
    border := border,
    padding := padding }

/-- Modelled from the spec: `offset` of `css-box-model`, which is a dependency and
not among the sources; section 4.1 of the spec: translates a box's border
rectangle by `delta` and rebuilds all nested rectangles from it. -/
def offset (original : BoxModel) (change : Position) : BoxModel :=
  createBox (offsetByPosition original.borderBox.toSpacing change)
    (some original.margin) (some original.border) (some original.padding)

/-- Modelled from the spec: `withScroll` of `css-box-model` with its scroll
argument supplied; section 4.1 of the spec: translates every rectangle of the box
by `scroll`, producing the page box from the client box. -/
def withScroll (original : BoxModel) (scroll : Position) : BoxModel :=
  offset original scroll

/-- The module-level constant `windowScroll` of `test/utils/dimension.js`, which
is `getPreset().windowScroll`. -/
def windowScroll : Position :=
  { x := 50, y := 100 }

abbrev DraggableDimensionMap := JSObject DraggableDimension

/-- The function mapped over the dimensions by `shiftDraggables`. -/
def shiftDimension (amount : Position) (indexChange : Double) (dimension : DraggableDimension) :
    DraggableDimension :=
  let borderBox := offsetByPosition dimension.client.borderBox.toSpacing amount
  let client := createBox borderBox
    (some dimension.client.margin) (some dimension.client.border) (some dimension.client.padding)
  let page := withScroll client windowScroll
  { descriptor :=
      { dimension.descriptor with index := dimension.descriptor.index + indexChange },
    boxSizing := dimension.boxSizing,
    client := client,
    page := page,
    placeholder := { dimension.placeholder with client := client } }

/-- The function `shiftDraggables`. -/
def shiftDraggables (amount : Position) (draggables : DraggableDimensionMap)
    (indexChange : Double) : DraggableDimensionMap :=
  ((JSObject.keys draggables).filterMap (fun id => JSObject.get draggables id))
    |>.map (shiftDimension amount indexChange)
    |>.foldl (fun previous current => JSObject.set previous current.descriptor.id current) []

/-- The four border-box edges are doubles, and adding the scroll to them does not
round. -/
def MovesExactly (borderBox : Spacing) (scroll : Position) : Prop :=
  (borderBox.top.Representable ∧ borderBox.bottom.Representable ∧
    borderBox.left.Representable ∧ borderBox.right.Representable) ∧
  Double.Exact borderBox.top scroll.y ∧ Double.Exact borderBox.bottom scroll.y ∧
  Double.Exact borderBox.left scroll.x ∧ Double.Exact borderBox.right scroll.x

instance (borderBox : Spacing) (scroll : Position) :
    Decidable (MovesExactly borderBox scroll) := by
  unfold MovesExactly
  infer_instance

/-- Shifting the dimension by `a` and `d1` and then by `b` and `d2`, and shifting
it by the sums, rounds in none of the additions on its border-box edges and on
its index. -/
def ShiftsExactly (a b : Position) (d1 d2 : Double) (dimension : DraggableDimension) : Prop :=
  Double.ExactTwice dimension.client.borderBox.top a.y b.y ∧
  Double.ExactTwice dimension.client.borderBox.bottom a.y b.y ∧
  Double.ExactTwice dimension.client.borderBox.left a.x b.x ∧
  Double.ExactTwice dimension.client.borderBox.right a.x b.x ∧
  Double.ExactTwice dimension.descriptor.index d1 d2

instance (a b : Position) (d1 d2 : Double) (dimension : DraggableDimension) :
    Decidable (ShiftsExactly a b d1 d2 dimension) := by
  unfold ShiftsExactly
  infer_instance

end Float64

/-- The object `reduce` builds from a list of items stored under `idOf`, starting
from the accumulator `previous`. -/
def collectBy {α : Type} (idOf : α → String) (previous : JSObject α) (items : List α) :
    JSObject α :=
  items.foldl (fun previous current => JSObject.set previous (idOf current) current) previous

/-- The keys of the object are distinct and every item is stored under its own
`idOf`. -/
def WellKeyedBy {α : Type} (idOf : α → String) (o : JSObject α) : Prop :=
  (JSObject.keys o).Nodup ∧ ∀ entry ∈ o, idOf entry.2 = entry.1

/-! ## Predicates used in the statements -/

/-- The four edges of `page` are those of `client` moved by `scroll`:
top and bottom by `scroll.y`, left and right by `scroll.x`. -/
def Rect.IsTranslateOf (page client : Rect) (scroll : Position) : Prop :=
  page.top = client.top + scroll.y ∧ page.bottom = client.bottom + scroll.y ∧
  page.left = client.left + scroll.x ∧ page.right = client.right + scroll.x

instance (page client : Rect) (scroll : Position) :
    Decidable (Rect.IsTranslateOf page client scroll) := by
  unfold Rect.IsTranslateOf
  infer_instance

/-- Each of the four rectangles of `page` (margin, border, padding, content) is
the corresponding rectangle of `client` moved by `scroll`. -/
def BoxModel.IsPageOf (page client : BoxModel) (scroll : Position) : Prop :=
  page.marginBox.IsTranslateOf client.marginBox scroll ∧
  page.borderBox.IsTranslateOf client.borderBox scroll ∧
  page.paddingBox.IsTranslateOf client.paddingBox scroll ∧
  page.contentBox.IsTranslateOf client.contentBox scroll

instance (page client : BoxModel) (scroll : Position) :
    Decidable (BoxModel.IsPageOf page client scroll) := by
  unfold BoxModel.IsPageOf
  infer_instance

/-- The keys of the object are distinct and every dimension is stored under its
own descriptor id. -/
def WellKeyed (o : DraggableDimensionMap) : Prop :=
  (JSObject.keys o).Nodup ∧ ∀ entry ∈ o, entry.2.descriptor.id = entry.1

/-- The object `shiftDraggables` builds from a list of dimensions with `reduce`,
starting from the accumulator `previous`. -/
def collect (previous : DraggableDimensionMap) (dimensions : List DraggableDimension) :
    DraggableDimensionMap :=
  dimensions.foldl (fun previous current => JSObject.set previous current.descriptor.id current)
    previous

/-- The rectangle `outer` contains the rectangle `inner`: its top and left are at
most, and its bottom and right at least, those of `inner`. -/
def Rect.Contains (outer inner : Rect) : Prop :=
  outer.top ≤ inner.top ∧ outer.left ≤ inner.left ∧
  inner.bottom ≤ outer.bottom ∧ inner.right ≤ outer.right

instance (outer inner : Rect) : Decidable (Rect.Contains outer inner) := by
  unfold Rect.Contains
  infer_instance

/-- The four rectangles of the box are nested: the margin box contains the border
box, which contains the padding box, which contains the content box. -/
def BoxModel.IsNested (box : BoxModel) : Prop :=
  box.marginBox.Contains box.borderBox ∧
  box.borderBox.Contains box.paddingBox ∧
  box.paddingBox.Contains box.contentBox

instance (box : BoxModel) : Decidable (BoxModel.IsNested box) := by
  unfold BoxModel.IsNested
  infer_instance

/-- No edge of the spacing is negative. -/
def Spacing.NonNegative (s : Spacing) : Prop :=
  0 ≤ s.top ∧ 0 ≤ s.right ∧ 0 ≤ s.bottom ∧ 0 ≤ s.left

instance (s : Spacing) : Decidable (Spacing.NonNegative s) := by
  unfold Spacing.NonNegative
  infer_instance

/-- Every dimension of the object is stored under its own descriptor id. -/
def KeyedById (o : DraggableDimensionMap) : Prop :=
  ∀ entry ∈ o, entry.2.descriptor.id = entry.1

instance (o : DraggableDimensionMap) : Decidable (KeyedById o) := by
  unfold KeyedById
  infer_instance

/-- No two properties of the object hold different dimensions with the same
descriptor id. -/
def DistinctIds (o : DraggableDimensionMap) : Prop :=
  ∀ first ∈ o, ∀ second ∈ o,
    first.2.descriptor.id = second.2.descriptor.id → first.2 = second.2

instance (o : DraggableDimensionMap) : Decidable (DistinctIds o) := by
  unfold DistinctIds
  infer_instance

instance (o : DraggableDimensionMap) : Decidable (WellKeyed o) := by
  unfold WellKeyed
  infer_instance

/-- One call as the marshal sees it, given the descriptor object that is
registered for this draggable (`none`: not registered): `registerDraggable` is
in order only when nothing is registered; `updateDraggable` and
`unregisterDraggable` only when their (previous) descriptor is the registered
object. The result is the descriptor registered afterwards, or `none` when the
call is out of order. -/
def protocolStep (registered : Option Ref) (call : Effect) : Option (Option Ref) :=
  match registered, call with
  | none, Effect.registerDraggable descriptor _ => some (some descriptor)
  | some current, Effect.updateDraggable previous next _ =>
    if previous = current then some (some next) else none
  | some current, Effect.unregisterDraggable descriptor =>
    if descriptor = current then some none else none
  | _, _ => none

/-- A trace of marshal calls checked from left to right: the traces in order are
those of the form `(register update* unregister)* (register update*)?` in which
every `update` and `unregister` names the object of the call before it. -/
def protocolRun : Option Ref → List Effect → Option (Option Ref)
  | registered, [] => some registered
  | registered, call :: calls =>
    match protocolStep registered call with
    | none => none
    | some next => protocolRun next calls

/-! ## Sample inputs -/

/-- An element at border box `{top: 10, right: 100, bottom: 20, left: 0}` with
zero margin, border and padding. -/
def sampleElement : HTMLElement :=
  { getBoundingClientRect := { top := 10, right := 100, bottom := 20, left := 0 },
    getComputedStyle :=
      { marginTop := 0, marginRight := 0, marginBottom := 0, marginLeft := 0,
        paddingTop := 0, paddingRight := 0, paddingBottom := 0, paddingLeft := 0,
        borderTopWidth := 0, borderRightWidth := 0, borderBottomWidth := 0,
        borderLeftWidth := 0, display := "block", boxSizing := "border-box" },
    tagName := "DIV" }

/-- Props of an attached draggable at rest. -/
def sampleProps : Props :=
  { draggableId := "item", droppableId := "list", type := "TYPE", index := 0,
    isDragging := false, offset := { x := 0, y := 0 },
    getDraggableRef := fun _ => some sampleElement }

/-- The same draggable after it moved to index 1. -/
def movedProps : Props :=
  { sampleProps with index := 1 }

/-- The same element rendered with another draggable id. -/
def renamedProps : Props :=
  { sampleProps with draggableId := "renamed" }

/-- The same draggable while it is dragged, with offset `(0, 5)`. -/
def draggingProps : Props :=
  { sampleProps with isDragging := true, offset := { x := 0, y := 5 } }

/-- The descriptor object allocated by the first `publish` of `sampleProps`. -/
def sampleRef : Ref :=
  { addr := 0, val := sampleProps.descriptor }

/-- The state after the first `publish` of `sampleProps`. -/
def samplePublished : Publisher :=
  { nextAddr := 1, memo := some (sampleProps.memoArgs, sampleRef),
    publishedDescriptor := some sampleRef }

/-- The two draggables `inHome1` and `inHome2`, keyed by id as in `getPreset`. -/
def sampleDraggables : DraggableDimensionMap :=
  [("inhome1", inHome1), ("inhome2", inHome2)]

/-- An object that holds `inHome1` under a key that is not its id. -/
def misKeyedDraggables : DraggableDimensionMap :=
  [("other", inHome1)]

/-- An object with two properties whose dimensions share the id `inhome1`: the
second has the box of `inHome2`. -/
def clashingDraggables : DraggableDimensionMap :=
  [("first", inHome1), ("second", { inHome2 with descriptor := inHome1.descriptor })]

/-- Arguments of `getDraggableDimension` with a negative top margin. -/
def negativeMarginArgs : GetDraggableArgs :=
  { descriptor := { id := "inhome1", droppableId := "home", type := "TYPE", index := 0 },
    borderBox := { top := 10, left := 0, right := 100, bottom := 20 },
    windowScroll := some getPresetWindowScroll,
    margin := some { top := -5, right := 0, bottom := 0, left := 0 },
    padding := none,
    border := none }

/-- The double nearest to `0.1`. -/
def Float64.tenth : Double :=
  Double.ofParts 3602879701896397 (-55)

/-- The double nearest to `0.2`. -/
def Float64.fifth : Double :=
  Double.ofParts 3602879701896397 (-54)

/-- The double nearest to `0.3`. -/
def Float64.threeTenths : Double :=
  Double.ofParts 5404319552844595 (-54)

/-- A dimension on doubles as `getDraggableDimension` builds it from the given
border box, with no margin, border or padding and the preset window scroll. -/
def Float64.dimensionAt (id : DraggableId) (index : Double) (borderBox : Float64.Spacing) :
    Float64.DraggableDimension :=
  { descriptor := { id := id, index := index, droppableId := "home", type := "TYPE" },
    client := Float64.createBox borderBox none none none,
    boxSizing := BoxSizing.borderBox,
    page := Float64.withScroll (Float64.createBox borderBox none none none)
      Float64.windowScroll,
    placeholder :=
      { client := Float64.createBox borderBox none none none,
        tagName := "div", display := "block", boxSizing := BoxSizing.borderBox } }

/-- One draggable whose border box starts at the fractional top `0.1`:
`{top: 0.1, right: 100, bottom: 20, left: 0}`. -/
def Float64.fractionalDraggables : Float64.DraggableDimensionMap :=
  [("a", Float64.dimensionAt "a" 0
      { top := Float64.tenth, right := 100, bottom := 20, left := 0 })]

/-- Two draggables at whole pixels, with the border boxes and indices of
`inHome1` and `inHome2`. -/
def Float64.wholeDraggables : Float64.DraggableDimensionMap :=
  [("inhome1", Float64.dimensionAt "inhome1" 0
      { top := 10, right := 100, bottom := 20, left := 0 }),
   ("inhome2", Float64.dimensionAt "inhome2" 1
      { top := 30, right := 100, bottom := 50, left := 0 })]

/-! ## The publisher protocol -/

theorem consistent_fresh : Publisher.fresh.Consistent := by
  constructor
  · intro args result h
    simp [Publisher.fresh] at h
  · intro published h
    simp [Publisher.fresh] at h

theorem getMemoizedDescriptor_hit (self : Publisher) (args : MemoArgs) (result : Ref)
    (h : self.memo = some (args, result)) :
    getMemoizedDescriptor self args = (result, self) := by
  simp [getMemoizedDescriptor, h]

theorem getMemoizedDescriptor_miss (self : Publisher) (args : MemoArgs)
    (h : ∀ result, self.memo ≠ some (args, result)) :
    getMemoizedDescriptor self args =
      ({ addr := self.nextAddr, val := args.toDescriptor },
       { self with
          nextAddr := self.nextAddr + 1,
          memo := some (args, { addr := self.nextAddr, val := args.toDescriptor }) }) := by
  unfold getMemoizedDescriptor
  cases hm : self.memo with
  | none => rfl
  | some entry =>
    obtain ⟨lastArgs, lastResult⟩ := entry
    have hne : lastArgs ≠ args := by
      intro heq
      exact h lastResult (by rw [hm, heq])
    simp [hne]

theorem memoArgs_toDescriptor (props : Props) :
    props.memoArgs.toDescriptor = props.descriptor := rfl

theorem toDescriptor_injective (a b : MemoArgs) (h : a.toDescriptor = b.toDescriptor) : a = b := by
  cases a
  cases b
  simp [MemoArgs.toDescriptor] at h
  simp [h]

/-- With a consistent state in which `published` is published with the fields
of the props, `publish` changes nothing and has no effect. -/
theorem publish_same (self : Publisher) (hc : self.Consistent) (props : Props)
    (published : Ref) (hp : self.publishedDescriptor = some published)
    (hsame : published.val = props.descriptor) :
    publish props self = .ok (self, []) := by
  obtain ⟨args, hm⟩ := hc.2 published hp
  have hval := (hc.1 args published hm).1
  have hargs : args = props.memoArgs :=
    toDescriptor_injective _ _ (by rw [← hval, hsame, memoArgs_toDescriptor])
  subst hargs
  simp [publish, getMemoizedDescriptor_hit self _ published hm, hp]

/-- With a consistent state in which nothing is published, `publish` registers
an object holding the fields of the props and publishes it. -/
theorem publish_unpublished (self : Publisher) (hc : self.Consistent) (props : Props)
    (hp : self.publishedDescriptor = none) :
    ∃ (d : Ref) (self1 : Publisher),
      d.val = props.descriptor ∧
      publish props self = .ok (self1, [Effect.registerDraggable d Callback.getDimension]) ∧
      self1.publishedDescriptor = some d ∧ self1.Consistent := by
  by_cases hit : ∃ result, self.memo = some (props.memoArgs, result)
  · obtain ⟨result, hm⟩ := hit
    refine ⟨result, { self with publishedDescriptor := some result }, ?_, ?_, rfl, ?_⟩
    · exact (hc.1 _ _ hm).1
    · simp [publish, getMemoizedDescriptor_hit self _ result hm, hp]
    · refine ⟨?_, ?_⟩
      · intro args r h
        exact hc.1 args r h
      · intro q hq
        refine ⟨props.memoArgs, ?_⟩
        simp only [Option.some.injEq] at hq
        rw [← hq]
        exact hm
  · have hmiss : ∀ result, self.memo ≠ some (props.memoArgs, result) := by
      intro result h
      exact hit ⟨result, h⟩
    refine ⟨{ addr := self.nextAddr, val := props.memoArgs.toDescriptor },
      { nextAddr := self.nextAddr + 1,
        memo := some (props.memoArgs,
          { addr := self.nextAddr, val := props.memoArgs.toDescriptor }),
        publishedDescriptor :=
          some { addr := self.nextAddr, val := props.memoArgs.toDescriptor } },
      rfl, ?_, rfl, ?_⟩
    · simp [publish, getMemoizedDescriptor_miss self _ hmiss, hp]
    · refine ⟨?_, ?_⟩
      · intro args r h
        simp only [Option.some.injEq, Prod.mk.injEq] at h
        obtain ⟨h1, h2⟩ := h
        subst h1
        subst h2
        exact ⟨rfl, Nat.lt_succ_self _⟩
      · intro q hq
        simp only [Option.some.injEq] at hq
        exact ⟨props.memoArgs, by rw [← hq]⟩

/-- With a consistent state in which `published` is published with fields other
than those of the props, `publish` updates the marshal from `published` to a new
object holding the fields of the props and publishes that. -/
theorem publish_changed (self : Publisher) (hc : self.Consistent) (props : Props)
    (published : Ref) (hp : self.publishedDescriptor = some published)
    (hdiff : published.val ≠ props.descriptor) :
    ∃ (d : Ref) (self1 : Publisher),
      d.val = props.descriptor ∧
      publish props self =
        .ok (self1, [Effect.updateDraggable published d Callback.getDimension]) ∧
      self1.publishedDescriptor = some d ∧ self1.Consistent := by
  obtain ⟨args, hm⟩ := hc.2 published hp
  obtain ⟨hval, hlt⟩ := hc.1 args published hm
  have hmiss : ∀ result, self.memo ≠ some (props.memoArgs, result) := by
    intro result h
    rw [hm] at h
    simp only [Option.some.injEq, Prod.mk.injEq] at h
    apply hdiff
    rw [hval, h.1]
    rfl
  have hne : ¬ self.nextAddr = published.addr := by omega
  refine ⟨{ addr := self.nextAddr, val := props.memoArgs.toDescriptor },
    { nextAddr := self.nextAddr + 1,
      memo := some (props.memoArgs,
        { addr := self.nextAddr, val := props.memoArgs.toDescriptor }),
      publishedDescriptor :=
        some { addr := self.nextAddr, val := props.memoArgs.toDescriptor } },
    rfl, ?_, rfl, ?_⟩
  · simp [publish, getMemoizedDescriptor_miss self _ hmiss, hp, hne]
  · refine ⟨?_, ?_⟩
    · intro args r h
      simp only [Option.some.injEq, Prod.mk.injEq] at h
      obtain ⟨h1, h2⟩ := h
      subst h1
      subst h2
      exact ⟨rfl, Nat.lt_succ_self _⟩
    · intro q hq
      simp only [Option.some.injEq] at hq
      exact ⟨props.memoArgs, by rw [← hq]⟩

theorem publish_consistent (self : Publisher) (hc : self.Consistent) (props : Props) :
    ∃ self1 effects, publish props self = .ok (self1, effects) ∧ self1.Consistent := by
  cases hp : self.publishedDescriptor with
  | none =>
    obtain ⟨d, self1, -, h, -, hc1⟩ := publish_unpublished self hc props hp
    exact ⟨self1, _, h, hc1⟩
  | some published =>
    by_cases hsame : published.val = props.descriptor
    · exact ⟨self, [], publish_same self hc props published hp hsame, hc⟩
    · obtain ⟨d, self1, -, h, -, hc1⟩ := publish_changed self hc props published hp hsame
      exact ⟨self1, _, h, hc1⟩

theorem unpublish_consistent (self : Publisher) (hc : self.Consistent) (props : Props) :
    ∃ self1 effects, unpublish props self = .ok (self1, effects) ∧ self1.Consistent := by
  cases hp : self.publishedDescriptor with
  | none =>
    exact ⟨self, [Effect.consoleError "cannot unpublish descriptor when none is published"],
      by simp [unpublish, hp], hc⟩
  | some published =>
    refine ⟨{ self with publishedDescriptor := none }, [Effect.unregisterDraggable published],
      by simp [unpublish, hp], ?_, ?_⟩
    · intro args result h
      exact hc.1 args result h
    · intro q hq
      simp at hq

theorem step_consistent (event : Event) (self : Publisher) (hc : self.Consistent) :
    ∃ self1 effects, step event self = .ok (self1, effects) ∧ self1.Consistent := by
  cases event with
  | publish props => exact publish_consistent self hc props
  | unpublish props => exact unpublish_consistent self hc props

theorem run_consistent (events : List Event) :
    ∀ self : Publisher, self.Consistent →
      ∃ self1 effects, run events self = .ok (self1, effects) ∧ self1.Consistent := by
  induction events with
  | nil =>
    intro self hc
    exact ⟨self, [], rfl, hc⟩
  | cons event events ih =>
    intro self hc
    obtain ⟨self1, effects1, h1, hc1⟩ := step_consistent event self hc
    obtain ⟨self2, effects2, h2, hc2⟩ := ih self1 hc1
    exact ⟨self2, effects1 ++ effects2, by simp [run, h1, h2], hc2⟩

theorem reachable_consistent (self : Publisher) (h : Reachable self) : self.Consistent := by
  obtain ⟨events, effects, hrun⟩ := h
  obtain ⟨self1, effects1, h1, hc1⟩ := run_consistent events Publisher.fresh consistent_fresh
  rw [hrun] at h1
  simp only [Except.ok.injEq, Prod.mk.injEq] at h1
  rw [h1.1]
  exact hc1

theorem reachable_samplePublished : Reachable samplePublished :=
  ⟨[Event.publish sampleProps],
   [Effect.registerDraggable sampleRef Callback.getDimension], rfl⟩

theorem reachable_fresh : Reachable Publisher.fresh :=
  ⟨[], [], rfl⟩

/-- C1: in every reachable state in which a descriptor is published, `publish`
with props whose `draggableId`, `index`, `droppableId` and `type` are the four
fields of the published descriptor makes no marshal call (it has no effect at
all) and leaves the state, so the published descriptor, as it is. Hence from any
reachable state the second of two consecutive `publish` calls with the same props
makes no call, and the two together make the calls of the first: at most one, and
exactly one when the props' descriptor was not already the published one. -/
theorem publish_idempotent (self : Publisher) (hreach : Reachable self) (props : Props) :
    (∀ published : Ref, self.publishedDescriptor = some published →
        props.draggableId = published.val.id → props.index = published.val.index →
        props.droppableId = published.val.droppableId → props.type = published.val.type →
        publish props self = .ok (self, [])) ∧
    (∃ (self1 : Publisher) (effects1 : List Effect),
        publish props self = .ok (self1, effects1) ∧
        publish props self1 = .ok (self1, []) ∧
        (marshalCalls effects1).length ≤ 1 ∧
        ((∀ published, self.publishedDescriptor = some published →
            published.val ≠ props.descriptor) →
          (marshalCalls effects1).length = 1)) := by
  have hc := reachable_consistent self hreach
  constructor
  · intro published hp h1 h2 h3 h4
    refine publish_same self hc props published hp ?_
    cases hv : published.val
    rw [hv] at h1 h2 h3 h4
    simp only at h1 h2 h3 h4
    simp [Props.descriptor, h1, h2, h3, h4]
  · cases hp : self.publishedDescriptor with
    | none =>
      obtain ⟨d, self1, hd, h, hpub, hc1⟩ := publish_unpublished self hc props hp
      exact ⟨self1, _, h, publish_same self1 hc1 props d hpub hd, by simp [marshalCalls, Effect.isMarshalCall],
        fun _ => by simp [marshalCalls, Effect.isMarshalCall]⟩
    | some published =>
      by_cases hsame : published.val = props.descriptor
      · refine ⟨self, [], publish_same self hc props published hp hsame,
          publish_same self hc props published hp hsame, by simp [marshalCalls], ?_⟩
        intro hall
        exact absurd hsame (hall published rfl)
      · obtain ⟨d, self1, hd, h, hpub, hc1⟩ := publish_changed self hc props published hp hsame
        exact ⟨self1, _, h, publish_same self1 hc1 props d hpub hd,
          by simp [marshalCalls, Effect.isMarshalCall],
          fun _ => by simp [marshalCalls, Effect.isMarshalCall]⟩

/-- Witness of C1: after the first `publish` of the sample props, a second
`publish` of the same props. -/
theorem publish_idempotent_witness :
    Reachable samplePublished ∧
    publish sampleProps samplePublished = .ok (samplePublished, []) :=
  ⟨reachable_samplePublished,
   (publish_idempotent samplePublished reachable_samplePublished sampleProps).1
      sampleRef rfl rfl rfl rfl rfl⟩

/-- C2: in every reachable state in which nothing is published, `publish` makes
exactly one marshal call, `registerDraggable(d, getDimension)` with `d` holding
`{id: draggableId, index, droppableId, type}` of the props (so no
`updateDraggable` call), and afterwards `d` is the published descriptor. -/
theorem publish_registers (self : Publisher) (hreach : Reachable self)
    (hnone : self.publishedDescriptor = none) (props : Props) :
    ∃ (d : Ref) (self1 : Publisher),
      d.val = { id := props.draggableId, index := props.index,
                droppableId := props.droppableId, type := props.type } ∧
      publish props self = .ok (self1, [Effect.registerDraggable d Callback.getDimension]) ∧
      self1.publishedDescriptor = some d := by
  obtain ⟨d, self1, hd, h, hpub, -⟩ :=
    publish_unpublished self (reachable_consistent self hreach) props hnone
  exact ⟨d, self1, hd, h, hpub⟩

/-- Witness of C2: the first `publish` on a fresh instance. -/
theorem publish_registers_witness :
    ∃ (d : Ref) (self1 : Publisher),
      d.val = { id := "item", index := 0, droppableId := "list", type := "TYPE" } ∧
      publish sampleProps Publisher.fresh =
        .ok (self1, [Effect.registerDraggable d Callback.getDimension]) ∧
      self1.publishedDescriptor = some d :=
  publish_registers Publisher.fresh reachable_fresh rfl sampleProps

/-- C3: in every reachable state with published descriptor `d`, `publish` with
props whose descriptor differs from `d` in at least one of `id`, `index`,
`droppableId`, `type` makes exactly one marshal call,
`updateDraggable(d, next, getDimension)` with `next` holding the fields of the
props (so no `registerDraggable` call), and afterwards `next` is the published
descriptor. -/
theorem publish_updates (self : Publisher) (hreach : Reachable self)
    (published : Ref) (hpub : self.publishedDescriptor = some published) (props : Props)
    (hdiff : published.val.id ≠ props.draggableId ∨ published.val.index ≠ props.index ∨
      published.val.droppableId ≠ props.droppableId ∨ published.val.type ≠ props.type) :
    ∃ (next : Ref) (self1 : Publisher),
      next.val = { id := props.draggableId, index := props.index,
                   droppableId := props.droppableId, type := props.type } ∧
      publish props self =
        .ok (self1, [Effect.updateDraggable published next Callback.getDimension]) ∧
      self1.publishedDescriptor = some next := by
  have hne : published.val ≠ props.descriptor := by
    intro h
    rw [h] at hdiff
    simp [Props.descriptor] at hdiff
  obtain ⟨d, self1, hd, h, hp, -⟩ :=
    publish_changed self (reachable_consistent self hreach) props published hpub hne
  exact ⟨d, self1, hd, h, hp⟩

/-- Witness of C3: the published sample draggable moves to index 1. -/
theorem publish_updates_witness :
    ∃ (next : Ref) (self1 : Publisher),
      next.val = { id := "item", index := 1, droppableId := "list", type := "TYPE" } ∧
      publish movedProps samplePublished =
        .ok (self1, [Effect.updateDraggable sampleRef next Callback.getDimension]) ∧
      self1.publishedDescriptor = some next :=
  publish_updates samplePublished reachable_samplePublished sampleRef rfl movedProps
    (Or.inr (Or.inl (by decide)))

/-- C4: in every state with published descriptor `d`, `unpublish` makes exactly
one marshal call, `unregisterDraggable(d)` with the published object itself,
whatever the current props are (also when their id is not that of `d`), and
afterwards nothing is published. -/
theorem unpublish_unregisters (self : Publisher) (published : Ref)
    (hpub : self.publishedDescriptor = some published) (props : Props) :
    ∃ self1 : Publisher,
      unpublish props self = .ok (self1, [Effect.unregisterDraggable published]) ∧
      self1.publishedDescriptor = none := by
  exact ⟨{ self with publishedDescriptor := none }, by simp [unpublish, hpub], rfl⟩

/-- Witness of C4: the sample draggable is unpublished while the current props
carry another id. -/
theorem unpublish_unregisters_witness :
    ∃ self1 : Publisher,
      unpublish renamedProps samplePublished =
        .ok (self1, [Effect.unregisterDraggable sampleRef]) ∧
      self1.publishedDescriptor = none :=
  unpublish_unregisters samplePublished sampleRef rfl renamedProps

/-- C5: `unpublish` in a state with nothing published (a fresh instance is one)
completes without throwing: its only effect is one `console.error`, it makes no
marshal call, and the state is left as it was, with nothing published. -/
theorem unpublish_nothing_published (self : Publisher)
    (hnone : self.publishedDescriptor = none) (props : Props) :
    unpublish props self =
      .ok (self, [Effect.consoleError "cannot unpublish descriptor when none is published"]) ∧
    marshalCalls [Effect.consoleError "cannot unpublish descriptor when none is published"]
      = [] ∧
    self.publishedDescriptor = none ∧
    Publisher.fresh.publishedDescriptor = none := by
  refine ⟨by simp [unpublish, hnone], rfl, hnone, rfl⟩

/-- Witness of C5: `unpublish` on a fresh instance. -/
theorem unpublish_nothing_published_witness :
    unpublish sampleProps Publisher.fresh =
      .ok (Publisher.fresh,
        [Effect.consoleError "cannot unpublish descriptor when none is published"]) :=
  (unpublish_nothing_published Publisher.fresh rfl sampleProps).1

/-! ## The capture callback -/

/-- What `getDimension` returns when the element is attached and a descriptor is
published. -/
theorem getDimension_ok (props : Props) (self : Publisher) (windowScroll windowScrollDiff : Position)
    (targetRef : HTMLElement) (descriptor : Ref)
    (hel : props.getDraggableRef () = some targetRef)
    (hpub : self.publishedDescriptor = some descriptor) :
    getDimension props self windowScroll windowScrollDiff =
      .ok ({ descriptor := descriptor.val,
             boxSizing := getBoxSizing targetRef.getComputedStyle,
             placeholder :=
               { client := offset
                   (calculateBox targetRef.getBoundingClientRect targetRef.getComputedStyle)
                   (getChange props windowScrollDiff).1,
                 tagName := toLowerCase targetRef.tagName,
                 display := targetRef.getComputedStyle.display,
                 boxSizing := getBoxSizing targetRef.getComputedStyle },
             client := offset
               (calculateBox targetRef.getBoundingClientRect targetRef.getComputedStyle)
               (getChange props windowScrollDiff).1,
             page := withScroll
               (offset
                 (calculateBox targetRef.getBoundingClientRect targetRef.getComputedStyle)
                 (getChange props windowScrollDiff).1)
               windowScroll },
           (getChange props windowScrollDiff).2) := by
  simp [getDimension, hel, hpub]

theorem withScroll_createBox_isPageOf (borderBox : Spacing) (margin border padding : Option Spacing)
    (scroll : Position) :
    (withScroll (createBox borderBox margin border padding) scroll).IsPageOf
      (createBox borderBox margin border padding) scroll := by
  simp only [BoxModel.IsPageOf, Rect.IsTranslateOf, withScroll, offset, createBox, getRect,
    expand, shrink, offsetByPosition, Rect.toSpacing, Option.getD_some]
  repeat' constructor
  all_goals omega

theorem withScroll_offset_isPageOf (box : BoxModel) (change scroll : Position) :
    (withScroll (offset box change) scroll).IsPageOf (offset box change) scroll := by
  unfold offset
  exact withScroll_createBox_isPageOf _ _ _ _ scroll

/-- C6: `getDimension` throws (an invariant error) exactly when the element
accessor returns nothing or no descriptor is published, for every `windowScroll`
and `windowScrollDiff`; when both are present it returns a dimension. -/
theorem getDimension_throws_iff (props : Props) (self : Publisher)
    (windowScroll windowScrollDiff : Position) :
    ((∃ message, getDimension props self windowScroll windowScrollDiff =
          .error (Error.invariant message)) ↔
      (props.getDraggableRef () = none ∨ self.publishedDescriptor = none)) ∧
    ((∃ dimension effects, getDimension props self windowScroll windowScrollDiff =
          .ok (dimension, effects)) ↔
      ((props.getDraggableRef ()).isSome = true ∧ self.publishedDescriptor.isSome = true)) := by
  cases hel : props.getDraggableRef () with
  | none => simp [getDimension, hel]
  | some targetRef =>
    cases hpub : self.publishedDescriptor with
    | none => simp [getDimension, hel, hpub]
    | some descriptor =>
      rw [getDimension_ok props self windowScroll windowScrollDiff targetRef descriptor hel hpub]
      simp

/-- C7: in `getDimension` the box is offset by `change`, where for every drag
offset `o` and `windowScrollDiff` `s`: when `isDragging` is false `change` is
`negate(o)`, that is `(-o.x, -o.y)`; when `isDragging` is true `change` is
`add(negate(o), negate(s))`, that is `(-o.x + -s.x, -o.y + -s.y)`. -/
theorem getDimension_change (props : Props) (self : Publisher)
    (windowScroll windowScrollDiff : Position) (targetRef : HTMLElement) (descriptor : Ref)
    (hel : props.getDraggableRef () = some targetRef)
    (hpub : self.publishedDescriptor = some descriptor) :
    (∃ dimension effects,
        getDimension props self windowScroll windowScrollDiff = .ok (dimension, effects) ∧
        dimension.client =
          offset (calculateBox targetRef.getBoundingClientRect targetRef.getComputedStyle)
            (getChange props windowScrollDiff).1) ∧
    (props.isDragging = false →
        (getChange props windowScrollDiff).1 = negate props.offset ∧
        (getChange props windowScrollDiff).1 = { x := -props.offset.x, y := -props.offset.y }) ∧
    (props.isDragging = true →
        (getChange props windowScrollDiff).1 =
          add (negate props.offset) (negate windowScrollDiff) ∧
        (getChange props windowScrollDiff).1 =
          { x := -props.offset.x + -windowScrollDiff.x,
            y := -props.offset.y + -windowScrollDiff.y }) := by
  refine ⟨⟨_, _, getDimension_ok props self windowScroll windowScrollDiff targetRef descriptor
    hel hpub, rfl⟩, ?_, ?_⟩
  · intro h
    simp [getChange, h, negate]
  · intro h
    simp [getChange, h, negate, add]

/-- Witness of C7: the sample draggable while dragged with offset `(0, 5)` and a
window scroll difference of `(0, 3)`: the change is `(0, -8)`. -/
theorem getDimension_change_witness :
    (getChange draggingProps { x := 0, y := 3 }).1 = { x := 0, y := -8 } :=
  ((getDimension_change draggingProps samplePublished { x := 0, y := 0 } { x := 0, y := 3 }
      sampleElement sampleRef rfl rfl).2.2 rfl).2

/-- C8: with the element attached (measured border rectangle `r`) and a
descriptor published, the client border box returned by `getDimension` is `r`
moved by the change (top and bottom by `change.y`, left and right by `change.x`,
width and height those of `r`), and the page border box is that client border
box moved by `windowScroll`. -/
theorem getDimension_borderBox (props : Props) (self : Publisher)
    (windowScroll windowScrollDiff : Position) (targetRef : HTMLElement) (descriptor : Ref)
    (hel : props.getDraggableRef () = some targetRef)
    (hpub : self.publishedDescriptor = some descriptor) :
    ∃ dimension effects,
      getDimension props self windowScroll windowScrollDiff = .ok (dimension, effects) ∧
      dimension.client.borderBox =
        { top := targetRef.getBoundingClientRect.top + (getChange props windowScrollDiff).1.y,
          right := targetRef.getBoundingClientRect.right + (getChange props windowScrollDiff).1.x,
          bottom := targetRef.getBoundingClientRect.bottom + (getChange props windowScrollDiff).1.y,
          left := targetRef.getBoundingClientRect.left + (getChange props windowScrollDiff).1.x,
          width := targetRef.getBoundingClientRect.right - targetRef.getBoundingClientRect.left,
          height := targetRef.getBoundingClientRect.bottom - targetRef.getBoundingClientRect.top } ∧
      dimension.page.borderBox =
        { top := dimension.client.borderBox.top + windowScroll.y,
          right := dimension.client.borderBox.right + windowScroll.x,
          bottom := dimension.client.borderBox.bottom + windowScroll.y,
          left := dimension.client.borderBox.left + windowScroll.x,
          width := dimension.client.borderBox.width,
          height := dimension.client.borderBox.height } := by
  refine ⟨_, _, getDimension_ok props self windowScroll windowScrollDiff targetRef descriptor
    hel hpub, ?_, ?_⟩
  · simp only [offset, calculateBox, createBox, getRect, offsetByPosition, Rect.toSpacing,
      Rect.mk.injEq, true_and]
    omega
  · simp only [withScroll, offset, calculateBox, createBox, getRect, offsetByPosition,
      Rect.toSpacing, Rect.mk.injEq, true_and]
    omega

/-- Witness of C8: the two scenarios of the specification. At border box
`{top: 10, right: 100, bottom: 20, left: 0}`, not dragging, offset and window
scroll zero, the client and the page border box are that rectangle; dragging with
offset `(0, 5)` and window scroll difference `(0, 3)`, the client border box has
top 2. -/
theorem getDimension_borderBox_witness :
    (∃ dimension effects,
      getDimension sampleProps samplePublished { x := 0, y := 0 } { x := 0, y := 0 } =
        .ok (dimension, effects) ∧
      dimension.client.borderBox =
        { top := 10, right := 100, bottom := 20, left := 0, width := 100, height := 10 } ∧
      dimension.page.borderBox =
        { top := 10, right := 100, bottom := 20, left := 0, width := 100, height := 10 }) ∧
    (∃ dimension effects,
      getDimension draggingProps samplePublished { x := 0, y := 0 } { x := 0, y := 3 } =
        .ok (dimension, effects) ∧
      dimension.client.borderBox.top = 2) := by
  constructor
  · obtain ⟨dimension, effects, h, hclient, hpage⟩ :=
      getDimension_borderBox sampleProps samplePublished { x := 0, y := 0 } { x := 0, y := 0 }
        sampleElement sampleRef rfl rfl
    refine ⟨dimension, effects, h, ?_, ?_⟩
    · rw [hclient]
      decide
    · rw [hpage, hclient]
      decide
  · obtain ⟨dimension, effects, h, hclient, -⟩ :=
      getDimension_borderBox draggingProps samplePublished { x := 0, y := 0 } { x := 0, y := 3 }
        sampleElement sampleRef rfl rfl
    refine ⟨dimension, effects, h, ?_⟩
    rw [hclient]
    decide

/-- C9: for every dimension returned by `getDimension` with window scroll `w`,
and every dimension built by `getDraggableDimension` or `getDroppableDimension`
with an explicit `windowScroll` `w` (for a droppable also its closest scrollable
frame), each of the four page rectangles (margin, border, padding, content) is
the corresponding client rectangle moved by `w`: `page.top = client.top + w.y`,
`page.bottom = client.bottom + w.y`, `page.left = client.left + w.x`,
`page.right = client.right + w.x`. -/
theorem page_is_client_plus_windowScroll (w : Position) :
    (∀ (props : Props) (self : Publisher) (windowScrollDiff : Position)
        (targetRef : HTMLElement) (descriptor : Ref),
        props.getDraggableRef () = some targetRef →
        self.publishedDescriptor = some descriptor →
        ∃ dimension effects,
          getDimension props self w windowScrollDiff = .ok (dimension, effects) ∧
          dimension.page.IsPageOf dimension.client w) ∧
    (∀ (window : Window) (args : GetDraggableArgs), args.windowScroll = some w →
        (getDraggableDimension window args).page.IsPageOf
          (getDraggableDimension window args).client w) ∧
    (∀ (window : Window) (args : GetDroppableArgs), args.windowScroll = some w →
        (getDroppableDimension window args).page.IsPageOf
          (getDroppableDimension window args).client w ∧
        ∀ frame, (getDroppableDimension window args).viewport.closestScrollable = some frame →
          frame.page.IsPageOf frame.client w) := by
  refine ⟨?_, ?_, ?_⟩
  · intro props self windowScrollDiff targetRef descriptor hel hpub
    exact ⟨_, _, getDimension_ok props self w windowScrollDiff targetRef descriptor hel hpub,
      withScroll_offset_isPageOf _ _ _⟩
  · intro window args hw
    simp only [getDraggableDimension, hw, Option.getD_some]
    exact withScroll_createBox_isPageOf _ _ _ _ w
  · intro window args hw
    constructor
    · simp only [getDroppableDimension, getDroppable, hw, Option.getD_some]
      exact withScroll_createBox_isPageOf _ _ _ _ w
    · intro frame hframe
      cases hc : args.closest with
      | none => simp [getDroppableDimension, getDroppable, hc] at hframe
      | some closest =>
        simp only [getDroppableDimension, getDroppable, hc, hw, Option.getD_some,
          Option.map_some', Option.some.injEq] at hframe
        rw [← hframe]
        exact withScroll_createBox_isPageOf _ _ _ _ w

/-! ## Plain objects used as maps -/

namespace JSObject

variable {α : Type}

theorem get_insertNew_ne (key : String) (value : α) (other : String) (hne : key ≠ other) :
    ∀ o : JSObject α, get (insertNew key value o) other = get o other := by
  intro o
  induction o with
  | nil => simp [insertNew, get, hne]
  | cons entry rest ih =>
    obtain ⟨k, v⟩ := entry
    by_cases hb : comesBefore key k = true
    · simp [insertNew, hb, get, hne]
    · simp [insertNew, hb, get, ih]

theorem get_insertNew_self (key : String) (value : α) :
    ∀ o : JSObject α, get o key = none → get (insertNew key value o) key = some value := by
  intro o
  induction o with
  | nil => simp [insertNew, get]
  | cons entry rest ih =>
    obtain ⟨k, v⟩ := entry
    intro h
    by_cases hk : k = key
    · simp [get, hk] at h
    · simp only [get, hk, if_false] at h
      by_cases hb : comesBefore key k = true
      · simp [insertNew, hb, get]
      · simp [insertNew, hb, get, hk, ih h]

theorem get_replace_ne (key : String) (value : α) (other : String) (hne : key ≠ other) :
    ∀ o : JSObject α, get (replace key value o) other = get o other := by
  intro o
  induction o with
  | nil => simp [replace, get]
  | cons entry rest ih =>
    obtain ⟨k, v⟩ := entry
    by_cases hk : k = key
    · subst hk
      simp [replace, get, hne]
    · simp [replace, hk, get, ih]

theorem get_replace_self (key : String) (value : α) :
    ∀ o : JSObject α, (get o key).isSome = true → get (replace key value o) key = some value := by
  intro o
  induction o with
  | nil => simp [get]
  | cons entry rest ih =>
    obtain ⟨k, v⟩ := entry
    intro h
    by_cases hk : k = key
    · simp [replace, hk, get]
    · simp only [get, hk, if_false] at h
      simp [replace, hk, get, ih h]

/-- Reading after the assignment `o[key] = value`. -/
theorem get_set (o : JSObject α) (key : String) (value : α) (other : String) :
    get (set o key value) other = if key = other then some value else get o other := by
  unfold set
  by_cases hne : key = other
  · subst hne
    by_cases hs : (get o key).isSome = true
    · simp [hs, get_replace_self key value o hs]
    · have hnone : get o key = none := by
        cases hg : get o key with
        | none => rfl
        | some x => simp [hg] at hs
      simp [hnone, get_insertNew_self key value o hnone]
  · by_cases hs : (get o key).isSome = true
    · simp [hs, hne, get_replace_ne key value other hne o]
    · simp [hs, hne, get_insertNew_ne key value other hne o]

theorem get_eq_none_of_not_mem_keys :
    ∀ (o : JSObject α) (key : String), key ∉ keys o → get o key = none := by
  intro o
  induction o with
  | nil => simp [get]
  | cons entry rest ih =>
    obtain ⟨k, v⟩ := entry
    intro key hk
    simp only [keys, List.map_cons, List.mem_cons, not_or] at hk
    have hne : ¬ k = key := fun h => hk.1 h.symm
    simp only [get, hne, if_false]
    exact ih key hk.2

theorem not_mem_keys_of_get_eq_none :
    ∀ (o : JSObject α) (key : String), get o key = none → key ∉ keys o := by
  intro o
  induction o with
  | nil => simp [keys]
  | cons entry rest ih =>
    obtain ⟨k, v⟩ := entry
    intro key h
    by_cases hk : k = key
    · simp [get, hk] at h
    · simp only [get, hk, if_false] at h
      simp only [keys, List.map_cons, List.mem_cons, not_or]
      exact ⟨fun h2 => hk h2.symm, ih key h⟩

theorem insertNew_perm (key : String) (value : α) :
    ∀ o : JSObject α, List.Perm (insertNew key value o) ((key, value) :: o) := by
  intro o
  induction o with
  | nil => simp [insertNew]
  | cons entry rest ih =>
    obtain ⟨k, v⟩ := entry
    by_cases hb : comesBefore key k = true
    · simp [insertNew, hb]
    · simp only [insertNew, hb, Bool.false_eq_true, if_false]
      exact (List.Perm.cons (k, v) ih).trans (List.Perm.swap _ _ _)

theorem keys_replace (key : String) (value : α) :
    ∀ o : JSObject α, keys (replace key value o) = keys o := by
  intro o
  induction o with
  | nil => simp [replace]
  | cons entry rest ih =>
    obtain ⟨k, v⟩ := entry
    by_cases hk : k = key
    · simp [replace, hk, keys]
    · simp only [replace, hk, if_false, keys, List.map_cons, List.cons.injEq, true_and]
      exact ih

theorem mem_replace (key : String) (value : α) (entry : String × α) :
    ∀ o : JSObject α, entry ∈ replace key value o → entry ∈ o ∨ entry = (key, value) := by
  intro o
  induction o with
  | nil => simp [replace]
  | cons first rest ih =>
    obtain ⟨k, v⟩ := first
    intro h
    by_cases hk : k = key
    · simp only [replace, hk, if_true, List.mem_cons] at h
      rcases h with h | h
      · exact Or.inr h
      · exact Or.inl (List.mem_cons_of_mem _ h)
    · simp only [replace, hk, if_false, List.mem_cons] at h
      rcases h with h | h
      · exact Or.inl (by rw [h]; exact List.mem_cons_self _ _)
      · rcases ih h with h2 | h2
        · exact Or.inl (List.mem_cons_of_mem _ h2)
        · exact Or.inr h2

/-- The values of an object with distinct keys, as `shiftDraggables` reads them:
every key of `Object.keys` looked up in the object. -/
theorem values_of_nodup :
    ∀ o : JSObject α, (keys o).Nodup →
      (keys o).filterMap (fun id => get o id) = o.map Prod.snd := by
  intro o
  induction o with
  | nil => simp [keys]
  | cons entry rest ih =>
    obtain ⟨k, v⟩ := entry
    intro hnd
    simp only [keys, List.map_cons, List.nodup_cons] at hnd
    have hrest : (keys rest).filterMap (fun id => if k = id then some v else get rest id)
        = (keys rest).filterMap (fun id => get rest id) := by
      apply List.filterMap_congr
      intro id hid
      have hne : ¬ k = id := by
        intro h
        subst h
        exact hnd.1 hid
      simp [hne]
    have hih := ih hnd.2
    simp only [keys] at hih hrest
    simp only [keys, List.map_cons, List.filterMap_cons, get, if_true]
    rw [hrest, hih]

end JSObject

/-! ## `shiftDraggables` -/

theorem shiftDraggables_eq_collect (amount : Position) (draggables : DraggableDimensionMap)
    (indexChange : Int) :
    shiftDraggables amount draggables indexChange =
      collect []
        (((JSObject.keys draggables).filterMap (fun id => JSObject.get draggables id)).map
          (shiftDimension amount indexChange)) := rfl

theorem shiftDimension_id (amount : Position) (indexChange : Int) (dimension : DraggableDimension) :
    (shiftDimension amount indexChange dimension).descriptor.id = dimension.descriptor.id := rfl

/-- Collecting the images of the dimensions under a map that keeps ids gives,
under every id, the image of what collecting the dimensions gives. -/
theorem get_collect_map (g : DraggableDimension → DraggableDimension)
    (hg : ∀ d, (g d).descriptor.id = d.descriptor.id) :
    ∀ (dimensions : List DraggableDimension) (acc acc1 : DraggableDimensionMap),
      (∀ id, JSObject.get acc1 id = (JSObject.get acc id).map g) →
      ∀ id, JSObject.get (collect acc1 (dimensions.map g)) id =
        (JSObject.get (collect acc dimensions) id).map g := by
  intro dimensions
  induction dimensions with
  | nil =>
    intro acc acc1 h id
    exact h id
  | cons d rest ih =>
    intro acc acc1 h id
    simp only [collect, List.map_cons, List.foldl_cons]
    apply ih (JSObject.set acc d.descriptor.id d) (JSObject.set acc1 (g d).descriptor.id (g d))
    intro key
    rw [JSObject.get_set, JSObject.get_set, hg d]
    by_cases hk : d.descriptor.id = key
    · simp [hk]
    · simp [hk, h key]

theorem wellKeyed_nil : WellKeyed [] := by
  constructor
  · simp [JSObject.keys]
  · intro entry h
    simp at h

theorem wellKeyed_set (o : DraggableDimensionMap) (h : WellKeyed o) (d : DraggableDimension) :
    WellKeyed (JSObject.set o d.descriptor.id d) := by
  unfold JSObject.set
  by_cases hs : (JSObject.get o d.descriptor.id).isSome = true
  · simp only [hs, if_true]
    constructor
    · rw [JSObject.keys_replace]
      exact h.1
    · intro entry hmem
      rcases JSObject.mem_replace _ _ entry o hmem with h1 | h1
      · exact h.2 entry h1
      · rw [h1]
  · simp only [hs, Bool.false_eq_true, if_false]
    have hnone : JSObject.get o d.descriptor.id = none := by
      cases hg : JSObject.get o d.descriptor.id with
      | none => rfl
      | some x => simp [hg] at hs
    have hperm := JSObject.insertNew_perm d.descriptor.id d o
    constructor
    · have hkeys : List.Perm (JSObject.keys (JSObject.insertNew d.descriptor.id d o))
          (d.descriptor.id :: JSObject.keys o) := by
        simpa [JSObject.keys] using hperm.map Prod.fst
      rw [hkeys.nodup_iff, List.nodup_cons]
      exact ⟨JSObject.not_mem_keys_of_get_eq_none o _ hnone, h.1⟩
    · intro entry hmem
      have hmem2 := hperm.mem_iff.mp hmem
      rcases List.mem_cons.mp hmem2 with h1 | h1
      · rw [h1]
      · exact h.2 entry h1

theorem wellKeyed_collect (dimensions : List DraggableDimension) :
    ∀ acc : DraggableDimensionMap, WellKeyed acc → WellKeyed (collect acc dimensions) := by
  induction dimensions with
  | nil =>
    intro acc h
    exact h
  | cons d rest ih =>
    intro acc h
    simp only [collect, List.foldl_cons]
    exact ih _ (wellKeyed_set acc h d)

/-- Collecting the values of a well-keyed object on top of an accumulator: the
object's own entries win. -/
theorem get_collect_values :
    ∀ (o : DraggableDimensionMap), WellKeyed o →
      ∀ (acc : DraggableDimensionMap) (id : String),
        JSObject.get (collect acc (o.map Prod.snd)) id =
          match JSObject.get o id with
          | some d => some d
          | none => JSObject.get acc id := by
  intro o
  induction o with
  | nil =>
    intro _ acc id
    simp [collect, JSObject.get]
  | cons entry rest ih =>
    obtain ⟨k, v⟩ := entry
    intro h acc id
    have hv : v.descriptor.id = k := h.2 (k, v) (List.mem_cons_self _ _)
    have hnd : k ∉ JSObject.keys rest ∧ (JSObject.keys rest).Nodup := by
      have := h.1
      simpa [JSObject.keys] using this
    have hrest : WellKeyed rest :=
      ⟨hnd.2, fun e he => h.2 e (List.mem_cons_of_mem _ he)⟩
    have hstep := ih hrest (JSObject.set acc v.descriptor.id v) id
    simp only [collect, List.map_cons, List.foldl_cons] at hstep ⊢
    rw [hstep, JSObject.get_set, hv]
    by_cases hk : k = id
    · subst hk
      simp [JSObject.get, JSObject.get_eq_none_of_not_mem_keys rest k hnd.1]
    · simp [JSObject.get, hk]

/-! ## The keys of the result of `shiftDraggables` -/

theorem get_mem :
    ∀ (o : DraggableDimensionMap) (key : String) (d : DraggableDimension),
      JSObject.get o key = some d → (key, d) ∈ o := by
  intro o
  induction o with
  | nil =>
    intro key d h
    simp [JSObject.get] at h
  | cons entry rest ih =>
    obtain ⟨k, v⟩ := entry
    intro key d h
    by_cases hk : k = key
    · simp only [JSObject.get, hk, if_true, Option.some.injEq] at h
      rw [hk, h]
      exact List.mem_cons_self _ _
    · simp only [JSObject.get, hk, if_false] at h
      exact List.mem_cons_of_mem _ (ih key d h)

theorem mem_keys_iff (o : DraggableDimensionMap) (key : String) :
    key ∈ JSObject.keys o ↔ ∃ d, JSObject.get o key = some d := by
  constructor
  · intro h
    cases hg : JSObject.get o key with
    | none => exact absurd h (JSObject.not_mem_keys_of_get_eq_none o key hg)
    | some d => exact ⟨d, rfl⟩
  · intro h
    obtain ⟨d, hd⟩ := h
    by_contra hn
    rw [JSObject.get_eq_none_of_not_mem_keys o key hn] at hd
    simp at hd

/-- The dimensions `shiftDraggables` reads from its input are those some key of
the input holds. -/
theorem mem_values (o : DraggableDimensionMap) (d : DraggableDimension) :
    d ∈ (JSObject.keys o).filterMap (fun id => JSObject.get o id) ↔
      ∃ key, JSObject.get o key = some d := by
  rw [List.mem_filterMap]
  constructor
  · rintro ⟨key, -, h⟩
    exact ⟨key, h⟩
  · rintro ⟨key, h⟩
    exact ⟨key, (mem_keys_iff o key).mpr ⟨d, h⟩, h⟩

/-- What `reduce` leaves under an id: one of the collected dimensions with that
id, or, when there is none, what the accumulator held. -/
theorem get_collect_cases :
    ∀ (dimensions : List DraggableDimension) (acc : DraggableDimensionMap) (id : String),
      (∃ d ∈ dimensions, d.descriptor.id = id ∧
          JSObject.get (collect acc dimensions) id = some d) ∨
      ((∀ d ∈ dimensions, d.descriptor.id ≠ id) ∧
          JSObject.get (collect acc dimensions) id = JSObject.get acc id) := by
  intro dimensions
  induction dimensions with
  | nil =>
    intro acc id
    exact Or.inr ⟨by simp, rfl⟩
  | cons d rest ih =>
    intro acc id
    rcases ih (JSObject.set acc d.descriptor.id d) id with ⟨e, he, hid, hget⟩ | ⟨hall, hget⟩
    · exact Or.inl ⟨e, List.mem_cons_of_mem _ he, hid, by simpa [collect] using hget⟩
    · by_cases hd : d.descriptor.id = id
      · refine Or.inl ⟨d, List.mem_cons_self _ _, hd, ?_⟩
        have h2 : JSObject.get (collect acc (d :: rest)) id =
            JSObject.get (JSObject.set acc d.descriptor.id d) id := by
          simpa [collect] using hget
        rw [h2, JSObject.get_set, if_pos hd]
      · refine Or.inr ⟨?_, ?_⟩
        · intro e he
          rcases List.mem_cons.mp he with h1 | h1
          · rw [h1]
            exact hd
          · exact hall e h1
        · have h2 : JSObject.get (collect acc (d :: rest)) id =
              JSObject.get (JSObject.set acc d.descriptor.id d) id := by
            simpa [collect] using hget
          rw [h2, JSObject.get_set, if_neg hd]

/-- The keys of the result of `shiftDraggables` are the descriptor ids of the
dimensions of its input. -/
theorem mem_keys_shiftDraggables (amount : Position) (draggables : DraggableDimensionMap)
    (indexChange : Int) (key : String) :
    key ∈ JSObject.keys (shiftDraggables amount draggables indexChange) ↔
      ∃ inputKey d, JSObject.get draggables inputKey = some d ∧ d.descriptor.id = key := by
  rw [mem_keys_iff, shiftDraggables_eq_collect]
  constructor
  · rintro ⟨out, hout⟩
    rcases get_collect_cases
      (((JSObject.keys draggables).filterMap (fun id => JSObject.get draggables id)).map
        (shiftDimension amount indexChange)) [] key with ⟨e, he, hid, -⟩ | ⟨-, hget⟩
    · obtain ⟨d, hd, hde⟩ := List.mem_map.mp he
      obtain ⟨inputKey, hk⟩ := (mem_values draggables d).mp hd
      refine ⟨inputKey, d, hk, ?_⟩
      rw [← hid, ← hde]
      rfl
    · rw [hget] at hout
      simp [JSObject.get] at hout
  · rintro ⟨inputKey, d, hk, hid⟩
    rcases get_collect_cases
      (((JSObject.keys draggables).filterMap (fun id => JSObject.get draggables id)).map
        (shiftDimension amount indexChange)) [] key with ⟨e, -, -, hget⟩ | ⟨hall, -⟩
    · exact ⟨e, hget⟩
    · exfalso
      apply hall (shiftDimension amount indexChange d)
        (List.mem_map.mpr ⟨d, (mem_values draggables d).mpr ⟨inputKey, hk⟩, rfl⟩)
      exact hid

/-- C11, as the code has it: when every dimension of the input is stored under
its own descriptor id, then for every amount and index change the keys of the
map `shiftDraggables` returns are exactly the keys of the input map. -/
theorem shiftDraggables_keys (amount : Position) (draggables : DraggableDimensionMap)
    (indexChange : Int) (hkeyed : KeyedById draggables) (key : String) :
    key ∈ JSObject.keys (shiftDraggables amount draggables indexChange) ↔
      key ∈ JSObject.keys draggables := by
  rw [mem_keys_shiftDraggables, mem_keys_iff]
  constructor
  · rintro ⟨inputKey, d, hk, hid⟩
    have h := hkeyed (inputKey, d) (get_mem draggables inputKey d hk)
    simp only at h
    rw [← hid, h]
    exact ⟨d, hk⟩
  · rintro ⟨d, hd⟩
    exact ⟨key, d, hd, hkeyed (key, d) (get_mem draggables key d hd)⟩

/-- Witness of C11: the two preset draggables shifted by `(0, 30)` with index
change 1 keep the key `inhome2`. -/
theorem shiftDraggables_keys_witness :
    "inhome2" ∈ JSObject.keys (shiftDraggables { x := 0, y := 30 } sampleDraggables 1) ↔
      "inhome2" ∈ JSObject.keys sampleDraggables :=
  shiftDraggables_keys { x := 0, y := 30 } sampleDraggables 1 (by decide) "inhome2"

/-- Counterexample to C11 as stated: an input that holds `inHome1` under the key
`other` is returned with the single key `inhome1`, so the key sets differ. -/
theorem shiftDraggables_keys_counterexample :
    JSObject.keys misKeyedDraggables = ["other"] ∧
    JSObject.keys (shiftDraggables { x := 0, y := 0 } misKeyedDraggables 0) = ["inhome1"] ∧
    ¬ (∀ key, key ∈ JSObject.keys (shiftDraggables { x := 0, y := 0 } misKeyedDraggables 0) ↔
        key ∈ JSObject.keys misKeyedDraggables) := by
  refine ⟨by decide, by decide, ?_⟩
  intro h
  have h1 := (h "other").mpr (by decide)
  revert h1
  decide

/-! ## The entries of the result of `shiftDraggables` -/

/-- In an object with distinct keys in which dimensions with the same id are
equal, the result holds under the id of every input dimension the image of that
dimension. -/
theorem get_shiftDraggables_of_mem (amount : Position) (draggables : DraggableDimensionMap)
    (indexChange : Int) (hobject : (JSObject.keys draggables).Nodup)
    (hdistinct : DistinctIds draggables) (key : String) (dimension : DraggableDimension)
    (hmem : (key, dimension) ∈ draggables) :
    JSObject.get (shiftDraggables amount draggables indexChange) dimension.descriptor.id =
      some (shiftDimension amount indexChange dimension) := by
  rw [shiftDraggables_eq_collect, JSObject.values_of_nodup draggables hobject]
  rcases get_collect_cases ((draggables.map Prod.snd).map (shiftDimension amount indexChange)) []
    dimension.descriptor.id with ⟨e, he, hid, hget⟩ | ⟨hall, -⟩
  · obtain ⟨d, hd, hde⟩ := List.mem_map.mp he
    obtain ⟨entry, hentry, hsnd⟩ := List.mem_map.mp hd
    have hsame : entry.2 = dimension := by
      apply hdistinct entry hentry (key, dimension) hmem
      rw [hsnd, ← hid, ← hde]
      rfl
    rw [hget, ← hde, ← hsnd, hsame]
  · exfalso
    apply hall (shiftDimension amount indexChange dimension)
      (List.mem_map.mpr ⟨dimension, List.mem_map.mpr ⟨(key, dimension), hmem, rfl⟩, rfl⟩)
    rfl

/-- C12, as the code has it: when no two properties of the input hold different
dimensions with the same descriptor id, then for every dimension `D` of the
input, amount `a` and index change `k` the output holds under `D`'s id a
dimension whose client border box is `D`'s with top and bottom increased by
`a.y` and left and right by `a.x`, whose descriptor index is `D`'s plus `k`,
whose placeholder's client box is the new client box, and whose page box is the
new client box moved by the module's window scroll `{x: 50, y: 100}`. -/
theorem shiftDraggables_entry (amount : Position) (draggables : DraggableDimensionMap)
    (indexChange : Int) (hobject : (JSObject.keys draggables).Nodup)
    (hdistinct : DistinctIds draggables) (key : String) (dimension : DraggableDimension)
    (hmem : (key, dimension) ∈ draggables) :
    ∃ shifted,
      JSObject.get (shiftDraggables amount draggables indexChange) dimension.descriptor.id =
        some shifted ∧
      shifted.client.borderBox.top = dimension.client.borderBox.top + amount.y ∧
      shifted.client.borderBox.bottom = dimension.client.borderBox.bottom + amount.y ∧
      shifted.client.borderBox.left = dimension.client.borderBox.left + amount.x ∧
      shifted.client.borderBox.right = dimension.client.borderBox.right + amount.x ∧
      shifted.descriptor.index = dimension.descriptor.index + indexChange ∧
      shifted.placeholder.client = shifted.client ∧
      shifted.page.IsPageOf shifted.client { x := 50, y := 100 } := by
  refine ⟨shiftDimension amount indexChange dimension,
    get_shiftDraggables_of_mem amount draggables indexChange hobject hdistinct key dimension hmem,
    rfl, rfl, rfl, rfl, rfl, rfl, ?_⟩
  exact withScroll_createBox_isPageOf _ _ _ _ _

/-- Witness of C12: the scenario of the specification. The two preset draggables
with indices 0 and 1, shifted by `(0, 30)` with index change 1, get the indices
1 and 2 and border-box tops 40 and 60 (from 10 and 30). -/
theorem shiftDraggables_entry_witness :
    (∃ shifted,
      JSObject.get (shiftDraggables { x := 0, y := 30 } sampleDraggables 1) "inhome1" =
        some shifted ∧
      shifted.descriptor.index = 1 ∧ shifted.client.borderBox.top = 40) ∧
    (∃ shifted,
      JSObject.get (shiftDraggables { x := 0, y := 30 } sampleDraggables 1) "inhome2" =
        some shifted ∧
      shifted.descriptor.index = 2 ∧ shifted.client.borderBox.top = 60) := by
  constructor
  · obtain ⟨shifted, hget, htop, -, -, -, hindex, -, -⟩ :=
      shiftDraggables_entry { x := 0, y := 30 } sampleDraggables 1 (by decide) (by decide)
        "inhome1" inHome1 (by decide)
    exact ⟨shifted, hget, by rw [hindex]; decide, by rw [htop]; decide⟩
  · obtain ⟨shifted, hget, htop, -, -, -, hindex, -, -⟩ :=
      shiftDraggables_entry { x := 0, y := 30 } sampleDraggables 1 (by decide) (by decide)
        "inhome2" inHome2 (by decide)
    exact ⟨shifted, hget, by rw [hindex]; decide, by rw [htop]; decide⟩

/-- Counterexample to C12 as stated: in an input with two properties whose
dimensions share the id `inhome1`, the first being `inHome1` with border-box top
10, the output shifted by `(0, 30)` holds under that id a dimension with
border-box top 60, not 40. -/
theorem shiftDraggables_entry_counterexample :
    ("first", inHome1) ∈ clashingDraggables ∧
    inHome1.client.borderBox.top + 30 = 40 ∧
    ∃ shifted,
      JSObject.get (shiftDraggables { x := 0, y := 30 } clashingDraggables 1)
        inHome1.descriptor.id = some shifted ∧
      shifted.client.borderBox.top = 60 :=
  ⟨by decide, by decide,
   shiftDimension { x := 0, y := 30 } 1 { inHome2 with descriptor := inHome1.descriptor },
   by decide, by decide⟩

/-- Every dimension of the result of `shiftDraggables` is the image of a
dimension of the input. -/
theorem get_shiftDraggables_source (amount : Position) (draggables : DraggableDimensionMap)
    (indexChange : Int) (id : String) (shifted : DraggableDimension)
    (h : JSObject.get (shiftDraggables amount draggables indexChange) id = some shifted) :
    ∃ inputKey dimension, JSObject.get draggables inputKey = some dimension ∧
      shifted = shiftDimension amount indexChange dimension := by
  rw [shiftDraggables_eq_collect] at h
  rcases get_collect_cases
    (((JSObject.keys draggables).filterMap (fun id => JSObject.get draggables id)).map
      (shiftDimension amount indexChange)) [] id with ⟨e, he, -, hget⟩ | ⟨-, hget⟩
  · obtain ⟨d, hd, hde⟩ := List.mem_map.mp he
    obtain ⟨inputKey, hk⟩ := (mem_values draggables d).mp hd
    rw [hget] at h
    simp only [Option.some.injEq] at h
    exact ⟨inputKey, d, hk, by rw [← h, hde]⟩
  · rw [hget] at h
    simp [JSObject.get] at h

/-- C13: for every dimension `D`, amount and index change, the dimension
`shiftDraggables` makes from `D` has `D`'s descriptor id, droppableId and type,
`D`'s boxSizing, `D`'s client margin, border and padding (also as the spacings of
the new page box), and `D`'s placeholder tagName, display and boxSizing; and
every dimension of the returned map is made in this way from a dimension of the
input. -/
theorem shiftDraggables_frame (amount : Position) (indexChange : Int) :
    (∀ D : DraggableDimension,
      (shiftDimension amount indexChange D).descriptor.id = D.descriptor.id ∧
      (shiftDimension amount indexChange D).descriptor.droppableId = D.descriptor.droppableId ∧
      (shiftDimension amount indexChange D).descriptor.type = D.descriptor.type ∧
      (shiftDimension amount indexChange D).boxSizing = D.boxSizing ∧
      (shiftDimension amount indexChange D).client.margin = D.client.margin ∧
      (shiftDimension amount indexChange D).client.border = D.client.border ∧
      (shiftDimension amount indexChange D).client.padding = D.client.padding ∧
      (shiftDimension amount indexChange D).page.margin = D.client.margin ∧
      (shiftDimension amount indexChange D).page.border = D.client.border ∧
      (shiftDimension amount indexChange D).page.padding = D.client.padding ∧
      (shiftDimension amount indexChange D).placeholder.tagName = D.placeholder.tagName ∧
      (shiftDimension amount indexChange D).placeholder.display = D.placeholder.display ∧
      (shiftDimension amount indexChange D).placeholder.boxSizing = D.placeholder.boxSizing) ∧
    (∀ (draggables : DraggableDimensionMap) (id : String) (shifted : DraggableDimension),
      JSObject.get (shiftDraggables amount draggables indexChange) id = some shifted →
      ∃ inputKey D, JSObject.get draggables inputKey = some D ∧
        shifted = shiftDimension amount indexChange D) := by
  constructor
  · intro D
    simp [shiftDimension, createBox, withScroll, offset]
  · intro draggables id shifted h
    exact get_shiftDraggables_source amount draggables indexChange id shifted h

/-! ## Boxes -/

theorem offset_createBox (borderBox : Spacing) (margin border padding : Option Spacing)
    (change : Position) :
    offset (createBox borderBox margin border padding) change =
      createBox (offsetByPosition borderBox change) margin border padding := by
  cases margin <;> cases border <;> cases padding <;>
    simp [offset, createBox, getRect, Rect.toSpacing, offsetByPosition, expand, shrink]

theorem createBox_isNested (borderBox : Spacing) (margin border padding : Option Spacing)
    (hmargin : (margin.getD noSpacing).NonNegative)
    (hborder : (border.getD noSpacing).NonNegative)
    (hpadding : (padding.getD noSpacing).NonNegative) :
    (createBox borderBox margin border padding).IsNested := by
  simp only [Spacing.NonNegative] at hmargin hborder hpadding
  simp only [BoxModel.IsNested, Rect.Contains, createBox, getRect, expand, shrink,
    Rect.toSpacing]
  repeat' constructor
  all_goals omega

/-- C15, as the code has it: for every border box and every margin, border and
padding spacing (absent ones are zero) none of whose edges is negative, the box
built from them, as the client and the page box of `getDraggableDimension` and
`getDroppableDimension`, has nested rectangles: the margin box contains the
border box, which contains the padding box, which contains the content box (top
and left of the outer at most, bottom and right at least, those of the inner). -/
theorem box_isNested (borderBox : Spacing) (margin border padding : Option Spacing)
    (hmargin : (margin.getD noSpacing).NonNegative)
    (hborder : (border.getD noSpacing).NonNegative)
    (hpadding : (padding.getD noSpacing).NonNegative) :
    (createBox borderBox margin border padding).IsNested ∧
    (∀ (window : Window) (descriptor : DraggableDescriptor) (scroll : Option Position),
      (getDraggableDimension window
        { descriptor := descriptor, borderBox := borderBox, windowScroll := scroll,
          margin := margin, padding := padding, border := border }).client.IsNested ∧
      (getDraggableDimension window
        { descriptor := descriptor, borderBox := borderBox, windowScroll := scroll,
          margin := margin, padding := padding, border := border }).page.IsNested) ∧
    (∀ (window : Window) (descriptor : DroppableDescriptor) (direction : Option Direction)
        (scroll : Option Position) (closest : Option ClosestSubset) (isEnabled : Option Bool),
      (getDroppableDimension window
        { descriptor := descriptor, borderBox := borderBox, direction := direction,
          margin := margin, border := border, padding := padding, windowScroll := scroll,
          closest := closest, isEnabled := isEnabled }).client.IsNested ∧
      (getDroppableDimension window
        { descriptor := descriptor, borderBox := borderBox, direction := direction,
          margin := margin, border := border, padding := padding, windowScroll := scroll,
          closest := closest, isEnabled := isEnabled }).page.IsNested) := by
  have hclient := createBox_isNested borderBox margin border padding hmargin hborder hpadding
  have hpage : ∀ scroll : Position,
      (withScroll (createBox borderBox margin border padding) scroll).IsNested := by
    intro scroll
    rw [withScroll, offset_createBox]
    exact createBox_isNested _ margin border padding hmargin hborder hpadding
  refine ⟨hclient, ?_, ?_⟩
  · intro window descriptor scroll
    exact ⟨hclient, hpage _⟩
  · intro window descriptor direction scroll closest isEnabled
    exact ⟨hclient, hpage _⟩

/-- Witness of C15: the preset's border box for `inHome1` with the margin, border
and padding of `withAssortedSpacing`. -/
theorem box_isNested_witness :
    (createBox { top := 10, left := 0, right := 100, bottom := 20 }
      (some withAssortedSpacingMargin) (some withAssortedSpacingBorder)
      (some withAssortedSpacingPadding)).IsNested :=
  (box_isNested { top := 10, left := 0, right := 100, bottom := 20 }
    (some withAssortedSpacingMargin) (some withAssortedSpacingBorder)
    (some withAssortedSpacingPadding) (by decide) (by decide) (by decide)).1

/-- Counterexample to C15 as stated: with a top margin of `-5` the margin box of
the dimension `getDraggableDimension` builds starts at 15, below the top 10 of
its border box, so the margin box does not contain the border box. -/
theorem box_isNested_counterexample :
    (getDraggableDimension { pageXOffset := 0, pageYOffset := 0 }
      negativeMarginArgs).client.marginBox.top = 15 ∧
    (getDraggableDimension { pageXOffset := 0, pageYOffset := 0 }
      negativeMarginArgs).client.borderBox.top = 10 ∧
    ¬ (getDraggableDimension { pageXOffset := 0, pageYOffset := 0 }
      negativeMarginArgs).client.IsNested := by
  refine ⟨by decide, by decide, by decide⟩

/-! ## Effects and dependencies of the capture callback -/

/-- A successful `getDimension` found the element attached and a descriptor
published. -/
theorem getDimension_ok_inv (props : Props) (self : Publisher)
    (windowScroll windowScrollDiff : Position) (dimension : DraggableDimension)
    (effects : List Effect)
    (h : getDimension props self windowScroll windowScrollDiff = .ok (dimension, effects)) :
    ∃ targetRef descriptor,
      props.getDraggableRef () = some targetRef ∧ self.publishedDescriptor = some descriptor := by
  cases hel : props.getDraggableRef () with
  | none => simp [getDimension, hel] at h
  | some targetRef =>
    cases hpub : self.publishedDescriptor with
    | none => simp [getDimension, hel, hpub] at h
    | some descriptor => exact ⟨targetRef, descriptor, rfl, rfl⟩

/-- A successful `getDimension` makes no marshal call and assigns no field of the
instance (the published descriptor is read only); when `isDragging` is false it
has no effect at all. Its outcome depends on nothing but the element state,
`isDragging`, `offset`, the published descriptor's fields and the two arguments,
so two calls that agree on these return equal dimensions. -/
theorem getDimension_reads_only (props : Props) (self : Publisher)
    (windowScroll windowScrollDiff : Position) (dimension : DraggableDimension)
    (effects : List Effect)
    (h : getDimension props self windowScroll windowScrollDiff = .ok (dimension, effects)) :
    marshalCalls effects = [] ∧
    (props.isDragging = false → effects = []) ∧
    (∀ (props2 : Props) (self2 : Publisher),
      props2.getDraggableRef () = props.getDraggableRef () →
      props2.isDragging = props.isDragging → props2.offset = props.offset →
      self2.publishedDescriptor.map Ref.val = self.publishedDescriptor.map Ref.val →
      getDimension props2 self2 windowScroll windowScrollDiff = .ok (dimension, effects)) := by
  obtain ⟨targetRef, descriptor, hel, hpub⟩ :=
    getDimension_ok_inv props self windowScroll windowScrollDiff dimension effects h
  rw [getDimension_ok props self windowScroll windowScrollDiff targetRef descriptor hel hpub] at h
  simp only [Except.ok.injEq, Prod.mk.injEq] at h
  obtain ⟨hdim, heff⟩ := h
  refine ⟨?_, ?_, ?_⟩
  · rw [← heff]
    cases hd : props.isDragging <;> simp [getChange, hd, marshalCalls, Effect.isMarshalCall]
  · intro hd
    rw [← heff]
    simp [getChange, hd]
  · intro props2 self2 h1 h2 h3 h4
    rw [hpub] at h4
    cases hpub2 : self2.publishedDescriptor with
    | none => simp [hpub2] at h4
    | some descriptor2 =>
      rw [hpub2] at h4
      simp only [Option.map_some', Option.some.injEq] at h4
      rw [getDimension_ok props2 self2 windowScroll windowScrollDiff targetRef descriptor2
        (by rw [h1, hel]) hpub2]
      have hchange : getChange props2 windowScrollDiff = getChange props windowScrollDiff := by
        simp [getChange, h2, h3]
      rw [hchange, h4, ← hdim, ← heff]

/-- C16, the failing input: for the sample draggable while it is dragged with
offset `(0, 5)`, the successful `getDimension` with window scroll difference
`(0, 3)` writes `offseting dragging item by` and the change `(0, -8)` to the
console, where the claim has no log output; the same call for the draggable at
rest, the sibling branch, has no effect. -/
theorem getDimension_logs_while_dragging :
    (∃ dimension,
      getDimension draggingProps samplePublished { x := 0, y := 0 } { x := 0, y := 3 } =
        .ok (dimension,
          [Effect.consoleLog "offseting dragging item by" { x := 0, y := -8 }])) ∧
    (∃ dimension,
      getDimension sampleProps samplePublished { x := 0, y := 0 } { x := 0, y := 3 } =
        .ok (dimension, [])) :=
  ⟨⟨_, rfl⟩, ⟨_, rfl⟩⟩

/-- C18: for every successful `getDimension`, the descriptor of the returned
dimension is the published descriptor; its boxSizing is `border-box` exactly when
the computed `boxSizing` is the string `border-box` and `content-box` for every
other value; and its placeholder has the dimension's client box, the dimension's
boxSizing, the computed `display`, and the element's tag name in lower case. -/
theorem getDimension_fields (props : Props) (self : Publisher)
    (windowScroll windowScrollDiff : Position) (dimension : DraggableDimension)
    (effects : List Effect)
    (h : getDimension props self windowScroll windowScrollDiff = .ok (dimension, effects)) :
    ∃ targetRef descriptor,
      props.getDraggableRef () = some targetRef ∧
      self.publishedDescriptor = some descriptor ∧
      dimension.descriptor = descriptor.val ∧
      (dimension.boxSizing = BoxSizing.borderBox ↔
        targetRef.getComputedStyle.boxSizing = "border-box") ∧
      (dimension.boxSizing = BoxSizing.contentBox ↔
        targetRef.getComputedStyle.boxSizing ≠ "border-box") ∧
      dimension.placeholder.client = dimension.client ∧
      dimension.placeholder.boxSizing = dimension.boxSizing ∧
      dimension.placeholder.display = targetRef.getComputedStyle.display ∧
      dimension.placeholder.tagName = toLowerCase targetRef.tagName := by
  obtain ⟨targetRef, descriptor, hel, hpub⟩ :=
    getDimension_ok_inv props self windowScroll windowScrollDiff dimension effects h
  rw [getDimension_ok props self windowScroll windowScrollDiff targetRef descriptor hel hpub] at h
  simp only [Except.ok.injEq, Prod.mk.injEq] at h
  refine ⟨targetRef, descriptor, hel, hpub, ?_⟩
  rw [← h.1]
  refine ⟨rfl, ?_, ?_, rfl, rfl, rfl, rfl⟩
  · by_cases hb : targetRef.getComputedStyle.boxSizing = "border-box" <;>
      simp [getBoxSizing, hb]
  · by_cases hb : targetRef.getComputedStyle.boxSizing = "border-box" <;>
      simp [getBoxSizing, hb]

/-- Witness of C18: the sample element, a `DIV` with computed `boxSizing`
`border-box` and `display` `block`. -/
theorem getDimension_fields_witness :
    ∃ dimension effects,
      getDimension sampleProps samplePublished { x := 0, y := 0 } { x := 0, y := 0 } =
        .ok (dimension, effects) ∧
      dimension.descriptor =
        { id := "item", index := 0, droppableId := "list", type := "TYPE" } ∧
      dimension.boxSizing = BoxSizing.borderBox ∧
      dimension.placeholder.display = "block" ∧
      dimension.placeholder.tagName = "div" := by
  obtain ⟨targetRef, descriptor, hel, hpub, hdesc, hsizing, -, -, -, hdisplay, htag⟩ :=
    getDimension_fields sampleProps samplePublished { x := 0, y := 0 } { x := 0, y := 0 }
      _ _ rfl
  have hel2 : targetRef = sampleElement := by
    have : sampleProps.getDraggableRef () = some sampleElement := rfl
    rw [this] at hel
    simp only [Option.some.injEq] at hel
    exact hel.symm
  have hpub2 : descriptor = sampleRef := by
    have : samplePublished.publishedDescriptor = some sampleRef := rfl
    rw [this] at hpub
    simp only [Option.some.injEq] at hpub
    exact hpub.symm
  subst hel2
  subst hpub2
  refine ⟨_, _, rfl, hdesc, hsizing.mpr rfl, hdisplay, ?_⟩
  rw [htag]
  decide

/-- C19: when `isDragging` is false the outcome of `getDimension` is the same for
any two values of `windowScrollDiff`, whatever the element state, the other
props and `windowScroll` are; and the drag offset is undone both at rest and
while dragging: the change is `negate(offset)` plus a term in which the offset
does not occur (zero at rest, `negate(windowScrollDiff)` while dragging). -/
theorem getDimension_windowScrollDiff (props : Props) (hrest : props.isDragging = false)
    (self : Publisher) (windowScroll s1 s2 : Position) :
    getDimension props self windowScroll s1 = getDimension props self windowScroll s2 ∧
    (∀ (q : Props) (s : Position),
      (getChange q s).1 =
        add (negate q.offset) (if q.isDragging = true then negate s else { x := 0, y := 0 })) := by
  constructor
  · have hchange : getChange props s1 = getChange props s2 := by
      simp [getChange, hrest]
    cases hel : props.getDraggableRef () with
    | none => simp [getDimension, hel]
    | some targetRef =>
      cases hpub : self.publishedDescriptor with
      | none => simp [getDimension, hel, hpub]
      | some descriptor =>
        rw [getDimension_ok props self windowScroll s1 targetRef descriptor hel hpub,
          getDimension_ok props self windowScroll s2 targetRef descriptor hel hpub, hchange]
  · intro q s
    cases hd : q.isDragging <;> simp [getChange, hd, add, negate]

/-- Witness of C19: the sample draggable at rest, captured with window scroll
differences `(0, 3)` and `(7, 9)`. -/
theorem getDimension_windowScrollDiff_witness :
    getDimension sampleProps samplePublished { x := 0, y := 0 } { x := 0, y := 3 } =
      getDimension sampleProps samplePublished { x := 0, y := 0 } { x := 7, y := 9 } :=
  (getDimension_windowScrollDiff sampleProps rfl samplePublished { x := 0, y := 0 }
    { x := 0, y := 3 } { x := 7, y := 9 }).1

/-! ## The order of the marshal calls -/

theorem protocolRun_append (calls1 calls2 : List Effect) :
    ∀ (registered next : Option Ref), protocolRun registered calls1 = some next →
      protocolRun registered (calls1 ++ calls2) = protocolRun next calls2 := by
  induction calls1 with
  | nil =>
    intro registered next h
    simp only [protocolRun, Option.some.injEq] at h
    rw [List.nil_append, h]
  | cons call calls ih =>
    intro registered next h
    simp only [protocolRun, List.cons_append] at h ⊢
    cases hs : protocolStep registered call with
    | none => simp [hs] at h
    | some middle =>
      simp only [hs] at h ⊢
      exact ih middle next h

theorem marshalCalls_append (effects1 effects2 : List Effect) :
    marshalCalls (effects1 ++ effects2) = marshalCalls effects1 ++ marshalCalls effects2 := by
  simp [marshalCalls]

/-- One lifecycle event in a consistent state succeeds, and its marshal calls are
in order for a marshal that has the published descriptor registered. -/
theorem step_protocol (event : Event) (self : Publisher) (hc : self.Consistent) :
    ∃ self1 effects, step event self = .ok (self1, effects) ∧ self1.Consistent ∧
      protocolRun self.publishedDescriptor (marshalCalls effects) =
        some self1.publishedDescriptor := by
  cases event with
  | publish props =>
    cases hp : self.publishedDescriptor with
    | none =>
      obtain ⟨d, self1, -, h, hpub, hc1⟩ := publish_unpublished self hc props hp
      refine ⟨self1, _, h, hc1, ?_⟩
      rw [hpub]
      simp [marshalCalls, Effect.isMarshalCall, protocolRun, protocolStep]
    | some published =>
      by_cases hsame : published.val = props.descriptor
      · refine ⟨self, [], publish_same self hc props published hp hsame, hc, ?_⟩
        rw [hp]
        simp [marshalCalls, protocolRun]
      · obtain ⟨d, self1, -, h, hpub, hc1⟩ :=
          publish_changed self hc props published hp hsame
        refine ⟨self1, _, h, hc1, ?_⟩
        rw [hpub]
        simp [marshalCalls, Effect.isMarshalCall, protocolRun, protocolStep]
  | unpublish props =>
    cases hp : self.publishedDescriptor with
    | none =>
      refine ⟨self, [Effect.consoleError "cannot unpublish descriptor when none is published"],
        by simp [step, unpublish, hp], hc, ?_⟩
      rw [hp]
      simp [marshalCalls, Effect.isMarshalCall, protocolRun]
    | some published =>
      refine ⟨{ self with publishedDescriptor := none }, [Effect.unregisterDraggable published],
        by simp [step, unpublish, hp], ⟨fun args result h => hc.1 args result h, ?_⟩, ?_⟩
      · intro q hq
        simp at hq
      · simp [marshalCalls, Effect.isMarshalCall, protocolRun, protocolStep]

theorem run_protocol (events : List Event) :
    ∀ self : Publisher, self.Consistent →
      ∃ self1 effects, run events self = .ok (self1, effects) ∧ self1.Consistent ∧
        protocolRun self.publishedDescriptor (marshalCalls effects) =
          some self1.publishedDescriptor := by
  induction events with
  | nil =>
    intro self hc
    exact ⟨self, [], rfl, hc, rfl⟩
  | cons event events ih =>
    intro self hc
    obtain ⟨self1, effects1, h1, hc1, hp1⟩ := step_protocol event self hc
    obtain ⟨self2, effects2, h2, hc2, hp2⟩ := ih self1 hc1
    refine ⟨self2, effects1 ++ effects2, by simp [run, h1, h2], hc2, ?_⟩
    rw [marshalCalls_append, protocolRun_append _ _ _ _ hp1, hp2]

/-- C17: every finite sequence of lifecycle events on a fresh instance succeeds,
and the marshal calls it makes, in order, form a trace
`(register update* unregister)* (register update*)?`: a `registerDraggable` comes
only when nothing is registered, an `updateDraggable` or `unregisterDraggable`
only when a descriptor is, and the previous descriptor of every `updateDraggable`
and the descriptor of every `unregisterDraggable` is the object passed by the
call before it. What the trace leaves registered is the published descriptor. -/
theorem lifecycle_trace_in_order (events : List Event) :
    ∃ self effects, run events Publisher.fresh = .ok (self, effects) ∧
      protocolRun none (marshalCalls effects) = some self.publishedDescriptor := by
  obtain ⟨self, effects, h, -, hp⟩ := run_protocol events Publisher.fresh consistent_fresh
  exact ⟨self, effects, h, hp⟩

/-! ## The zero shift -/

/-- In an object keyed by id, `shiftDraggables` holds under every key the image
of what the input holds there. -/
theorem get_shiftDraggables_wellKeyed (amount : Position) (draggables : DraggableDimensionMap)
    (indexChange : Int) (hkeyed : WellKeyed draggables) (id : String) :
    JSObject.get (shiftDraggables amount draggables indexChange) id =
      (JSObject.get draggables id).map (shiftDimension amount indexChange) := by
  rw [shiftDraggables_eq_collect, JSObject.values_of_nodup draggables hkeyed.1,
    get_collect_map (shiftDimension amount indexChange) (shiftDimension_id amount indexChange)
      (draggables.map Prod.snd) [] [] (fun _ => rfl) id,
    get_collect_values draggables hkeyed [] id]
  cases JSObject.get draggables id <;> simp [JSObject.get]

theorem offsetByPosition_zero (spacing : Spacing) :
    offsetByPosition spacing { x := 0, y := 0 } = spacing := by
  cases spacing
  simp [offsetByPosition]

/-- The zero shift of a dimension built with the preset window scroll is that
dimension. -/
theorem shiftDimension_zero (window : Window) (args : GetDraggableArgs)
    (hscroll : args.windowScroll.getD (getWindowScroll window) = { x := 50, y := 100 }) :
    shiftDimension { x := 0, y := 0 } 0 (getDraggableDimension window args) =
      getDraggableDimension window args := by
  have hdescriptor : ({ args.descriptor with index := args.descriptor.index + 0 } :
      DraggableDescriptor) = args.descriptor := by
    cases args.descriptor
    simp
  have hclient : createBox
      (offsetByPosition
        (createBox args.borderBox args.margin args.border args.padding).borderBox.toSpacing
        { x := 0, y := 0 })
      (some (createBox args.borderBox args.margin args.border args.padding).margin)
      (some (createBox args.borderBox args.margin args.border args.padding).border)
      (some (createBox args.borderBox args.margin args.border args.padding).padding) =
      createBox args.borderBox args.margin args.border args.padding := by
    rw [offsetByPosition_zero]
    simp [createBox, getRect, Rect.toSpacing]
  simp only [shiftDimension, getDraggableDimension, getPlaceholder, hscroll]
  rw [hdescriptor, hclient]
  rfl

/-- The zero shift of a dimension built with another window scroll has another
page box. -/
theorem shiftDimension_zero_page_ne (window : Window) (args : GetDraggableArgs)
    (hscroll : args.windowScroll.getD (getWindowScroll window) ≠ { x := 50, y := 100 }) :
    (shiftDimension { x := 0, y := 0 } 0 (getDraggableDimension window args)).page ≠
      (getDraggableDimension window args).page := by
  intro h
  apply hscroll
  have hborder := congrArg BoxModel.borderBox h
  simp only [shiftDimension, getDraggableDimension, withScroll, offset, createBox, getRect,
    offsetByPosition, Rect.toSpacing, windowScroll, getPresetWindowScroll,
    Rect.mk.injEq] at hborder
  cases hw : args.windowScroll.getD (getWindowScroll window) with
  | mk x y =>
    rw [hw] at hborder
    simp only at hborder
    simp only [Position.mk.injEq]
    omega

/-- C20: for every draggable map `M` whose keys are distinct and equal to their
dimensions' descriptor ids: when every dimension of `M` was built by
`getDraggableDimension` with the preset window scroll `{x: 50, y: 100}`, the map
`shiftDraggables` returns for amount `(0, 0)` and index change 0 holds under
every id what `M` holds; and for a dimension of `M` built with any other window
scroll, the page box of the result under its key is not the page box of the
input. -/
theorem shiftDraggables_zero (M : DraggableDimensionMap) (hkeyed : WellKeyed M) :
    ((∀ entry ∈ M, ∃ window args,
          args.windowScroll.getD (getWindowScroll window) = { x := 50, y := 100 } ∧
          entry.2 = getDraggableDimension window args) →
      ∀ id, JSObject.get (shiftDraggables { x := 0, y := 0 } M 0) id = JSObject.get M id) ∧
    (∀ (key : String) (window : Window) (args : GetDraggableArgs),
      JSObject.get M key = some (getDraggableDimension window args) →
      args.windowScroll.getD (getWindowScroll window) ≠ { x := 50, y := 100 } →
      ∃ shifted,
        JSObject.get (shiftDraggables { x := 0, y := 0 } M 0) key = some shifted ∧
        shifted.page ≠ (getDraggableDimension window args).page) := by
  constructor
  · intro hbuilt id
    rw [get_shiftDraggables_wellKeyed _ M 0 hkeyed id]
    cases hget : JSObject.get M id with
    | none => rfl
    | some d =>
      obtain ⟨window, args, hscroll, hd⟩ := hbuilt (id, d) (get_mem M id d hget)
      simp only at hd
      rw [Option.map_some', hd, shiftDimension_zero window args hscroll]
  · intro key window args hget hscroll
    refine ⟨shiftDimension { x := 0, y := 0 } 0 (getDraggableDimension window args), ?_,
      shiftDimension_zero_page_ne window args hscroll⟩
    rw [get_shiftDraggables_wellKeyed _ M 0 hkeyed key, hget]
    rfl

/-- Witness of C20: the two preset draggables, built with the preset window
scroll: the zero shift returns them as they are. -/
theorem shiftDraggables_zero_witness :
    WellKeyed sampleDraggables ∧
    (∀ id, JSObject.get (shiftDraggables { x := 0, y := 0 } sampleDraggables 0) id =
      JSObject.get sampleDraggables id) ∧
    shiftDraggables { x := 0, y := 0 } sampleDraggables 0 = sampleDraggables := by
  refine ⟨by decide, ?_, by decide⟩
  apply (shiftDraggables_zero sampleDraggables (by decide)).1
  intro entry hentry
  simp only [sampleDraggables, List.mem_cons, List.mem_singleton, List.not_mem_nil,
    or_false] at hentry
  rcases hentry with h | h
  · exact ⟨{ pageXOffset := 0, pageYOffset := 0 }, inHome1Args, rfl, by rw [h]; rfl⟩
  · exact ⟨{ pageXOffset := 0, pageYOffset := 0 }, inHome2Args, rfl, by rw [h]; rfl⟩

/-! ## The result of `shiftDraggables` is keyed by descriptor id -/

theorem wellKeyed_shiftDraggables (amount : Position) (draggables : DraggableDimensionMap)
    (indexChange : Int) : WellKeyed (shiftDraggables amount draggables indexChange) := by
  rw [shiftDraggables_eq_collect]
  exact wellKeyed_collect _ [] wellKeyed_nil

/-- C21: for every input draggable map, keyed by id or not and with or without
two keys holding dimensions with the same id, every key `k` of the map
`shiftDraggables` returns holds a dimension whose descriptor id is `k`; the keys
of the result are distinct and are exactly the descriptor ids of the dimensions
of the input, so the result has one entry per distinct descriptor id of the
input. -/
theorem shiftDraggables_keyed_by_id (amount : Position) (draggables : DraggableDimensionMap)
    (indexChange : Int) :
    (∀ (k : String) (d : DraggableDimension),
      JSObject.get (shiftDraggables amount draggables indexChange) k = some d →
      d.descriptor.id = k) ∧
    (JSObject.keys (shiftDraggables amount draggables indexChange)).Nodup ∧
    (∀ k : String, k ∈ JSObject.keys (shiftDraggables amount draggables indexChange) ↔
      ∃ inputKey D, JSObject.get draggables inputKey = some D ∧ D.descriptor.id = k) ∧
    (shiftDraggables amount draggables indexChange).length =
      (((JSObject.keys draggables).filterMap (fun id => JSObject.get draggables id)).map
        (fun D => D.descriptor.id)).dedup.length := by
  have hwk := wellKeyed_shiftDraggables amount draggables indexChange
  refine ⟨?_, hwk.1, ?_, ?_⟩
  · intro k d h
    exact hwk.2 (k, d) (get_mem _ k d h)
  · intro k
    exact mem_keys_shiftDraggables amount draggables indexChange k
  · have hperm : List.Perm (JSObject.keys (shiftDraggables amount draggables indexChange))
        (((JSObject.keys draggables).filterMap (fun id => JSObject.get draggables id)).map
          (fun D => D.descriptor.id)).dedup := by
      rw [List.perm_ext_iff_of_nodup hwk.1 (List.nodup_dedup _)]
      intro k
      rw [mem_keys_shiftDraggables, List.mem_dedup, List.mem_map]
      constructor
      · rintro ⟨inputKey, D, hget, hid⟩
        exact ⟨D, (mem_values draggables D).mpr ⟨inputKey, hget⟩, hid⟩
      · rintro ⟨D, hD, hid⟩
        obtain ⟨inputKey, hget⟩ := (mem_values draggables D).mp hD
        exact ⟨inputKey, D, hget, hid⟩
    have hlen := hperm.length_eq
    simpa [JSObject.keys] using hlen

/-! ## Objects built by `reduce`, for any kind of item -/

theorem get_some_mem {α : Type} :
    ∀ (o : JSObject α) (key : String) (v : α), JSObject.get o key = some v → (key, v) ∈ o := by
  intro o
  induction o with
  | nil =>
    intro key v h
    simp [JSObject.get] at h
  | cons entry rest ih =>
    obtain ⟨k, w⟩ := entry
    intro key v h
    by_cases hk : k = key
    · simp only [JSObject.get, hk, if_true, Option.some.injEq] at h
      rw [hk, h]
      exact List.mem_cons_self _ _
    · simp only [JSObject.get, hk, if_false] at h
      exact List.mem_cons_of_mem _ (ih key v h)

/-- The items read from an object, key by key, are among its entries. -/
theorem mem_values_entry {α : Type} (o : JSObject α) (v : α)
    (h : v ∈ (JSObject.keys o).filterMap (fun id => JSObject.get o id)) :
    ∃ key, (key, v) ∈ o := by
  obtain ⟨key, -, hget⟩ := List.mem_filterMap.mp h
  exact ⟨key, get_some_mem o key v hget⟩

theorem get_collectBy_map {α : Type} (idOf : α → String) (g : α → α)
    (hg : ∀ d, idOf (g d) = idOf d) :
    ∀ (items : List α) (acc acc1 : JSObject α),
      (∀ id, JSObject.get acc1 id = (JSObject.get acc id).map g) →
      ∀ id, JSObject.get (collectBy idOf acc1 (items.map g)) id =
        (JSObject.get (collectBy idOf acc items) id).map g := by
  intro items
  induction items with
  | nil =>
    intro acc acc1 h id
    exact h id
  | cons d rest ih =>
    intro acc acc1 h id
    simp only [collectBy, List.map_cons, List.foldl_cons]
    apply ih (JSObject.set acc (idOf d) d) (JSObject.set acc1 (idOf (g d)) (g d))
    intro key
    rw [JSObject.get_set, JSObject.get_set, hg d]
    by_cases hk : idOf d = key
    · simp [hk]
    · simp [hk, h key]

/-- What `reduce` leaves under an id is one of the collected items, or what the
accumulator held. -/
theorem get_collectBy_mem {α : Type} (idOf : α → String) :
    ∀ (items : List α) (acc : JSObject α) (id : String) (v : α),
      JSObject.get (collectBy idOf acc items) id = some v →
      v ∈ items ∨ JSObject.get acc id = some v := by
  intro items
  induction items with
  | nil =>
    intro acc id v h
    exact Or.inr h
  | cons d rest ih =>
    intro acc id v h
    simp only [collectBy, List.foldl_cons] at h
    rcases ih (JSObject.set acc (idOf d) d) id v h with h1 | h1
    · exact Or.inl (List.mem_cons_of_mem _ h1)
    · rw [JSObject.get_set] at h1
      by_cases hk : idOf d = id
      · simp only [hk, if_true, Option.some.injEq] at h1
        rw [← h1]
        exact Or.inl (List.mem_cons_self _ _)
      · simp only [hk, if_false] at h1
        exact Or.inr h1

theorem wellKeyedBy_nil {α : Type} (idOf : α → String) : WellKeyedBy idOf ([] : JSObject α) := by
  constructor
  · simp [JSObject.keys]
  · intro entry h
    simp at h

theorem wellKeyedBy_set {α : Type} (idOf : α → String) (o : JSObject α)
    (h : WellKeyedBy idOf o) (d : α) : WellKeyedBy idOf (JSObject.set o (idOf d) d) := by
  unfold JSObject.set
  by_cases hs : (JSObject.get o (idOf d)).isSome = true
  · simp only [hs, if_true]
    constructor
    · rw [JSObject.keys_replace]
      exact h.1
    · intro entry hmem
      rcases JSObject.mem_replace _ _ entry o hmem with h1 | h1
      · exact h.2 entry h1
      · rw [h1]
  · simp only [hs, Bool.false_eq_true, if_false]
    have hnone : JSObject.get o (idOf d) = none := by
      cases hg : JSObject.get o (idOf d) with
      | none => rfl
      | some x => simp [hg] at hs
    have hperm := JSObject.insertNew_perm (idOf d) d o
    constructor
    · have hkeys : List.Perm (JSObject.keys (JSObject.insertNew (idOf d) d o))
          (idOf d :: JSObject.keys o) := by
        simpa [JSObject.keys] using hperm.map Prod.fst
      rw [hkeys.nodup_iff, List.nodup_cons]
      exact ⟨JSObject.not_mem_keys_of_get_eq_none o _ hnone, h.1⟩
    · intro entry hmem
      have hmem2 := hperm.mem_iff.mp hmem
      rcases List.mem_cons.mp hmem2 with h1 | h1
      · rw [h1]
      · exact h.2 entry h1

theorem wellKeyedBy_collectBy {α : Type} (idOf : α → String) (items : List α) :
    ∀ acc : JSObject α, WellKeyedBy idOf acc → WellKeyedBy idOf (collectBy idOf acc items) := by
  induction items with
  | nil =>
    intro acc h
    exact h
  | cons d rest ih =>
    intro acc h
    simp only [collectBy, List.foldl_cons]
    exact ih _ (wellKeyedBy_set idOf acc h d)

/-- Collecting the values of a well-keyed object on top of an accumulator: the
object's own entries win. -/
theorem get_collectBy_values {α : Type} (idOf : α → String) :
    ∀ (o : JSObject α), WellKeyedBy idOf o →
      ∀ (acc : JSObject α) (id : String),
        JSObject.get (collectBy idOf acc (o.map Prod.snd)) id =
          match JSObject.get o id with
          | some d => some d
          | none => JSObject.get acc id := by
  intro o
  induction o with
  | nil =>
    intro _ acc id
    simp [collectBy, JSObject.get]
  | cons entry rest ih =>
    obtain ⟨k, v⟩ := entry
    intro h acc id
    have hv : idOf v = k := h.2 (k, v) (List.mem_cons_self _ _)
    have hnd : k ∉ JSObject.keys rest ∧ (JSObject.keys rest).Nodup := by
      have := h.1
      simpa [JSObject.keys] using this
    have hrest : WellKeyedBy idOf rest :=
      ⟨hnd.2, fun e he => h.2 e (List.mem_cons_of_mem _ he)⟩
    have hstep := ih hrest (JSObject.set acc (idOf v) v) id
    simp only [collectBy, List.map_cons, List.foldl_cons] at hstep ⊢
    rw [hstep, JSObject.get_set, hv]
    by_cases hk : k = id
    · subst hk
      simp [JSObject.get, JSObject.get_eq_none_of_not_mem_keys rest k hnd.1]
    · simp [JSObject.get, hk]

/-! ## Arithmetic on doubles -/

theorem Double.add_scaled (x y : Double) :
    (x + y).scaled = roundToDouble (x.scaled + y.scaled) := rfl

theorem Double.neg_scaled (x : Double) : (-x).scaled = -x.scaled := rfl

/-- When none of the four additions rounds, the two ways of adding agree. -/
theorem Double.add_assoc_of_exact (t a b : Double) (h : Double.ExactTwice t a b) :
    (t + a) + b = t + (a + b) := by
  obtain ⟨h1, h2, h3, h4⟩ := h
  simp only [Double.Exact, Double.add_scaled] at h1 h2 h3 h4
  have hl : ((t + a) + b).scaled = t.scaled + a.scaled + b.scaled := by
    rw [Double.add_scaled, Double.add_scaled, h2, h1]
  have hr : (t + (a + b)).scaled = t.scaled + (a.scaled + b.scaled) := by
    rw [Double.add_scaled, Double.add_scaled, h4, h3]
  have hs : ((t + a) + b).scaled = (t + (a + b)).scaled := by
    rw [hl, hr, Int.add_assoc]
  cases hx : (t + a) + b
  cases hy : t + (a + b)
  rw [hx, hy] at hs
  simp only at hs
  rw [hs]

/-- When adding `c` to the double `e` does not round, adding `-c` gives `e`
back. -/
theorem Double.add_neg_cancel_of_exact (e c : Double) (he : e.Representable)
    (h : Double.Exact e c) : (e + c) + (-c) = e := by
  simp only [Double.Exact] at h
  simp only [Double.Representable] at he
  have hs : ((e + c) + (-c)).scaled = e.scaled := by
    rw [Double.add_scaled, Double.add_scaled, h, Double.neg_scaled]
    have : e.scaled + c.scaled + -c.scaled = e.scaled := by omega
    rw [this, he]
  cases hx : (e + c) + (-c)
  cases e
  rw [hx] at hs
  simp only at hs
  rw [hs]

/-! ## `shiftDraggables` and the box round trip on doubles -/

theorem shiftDraggables_eq_collectBy (amount : Float64.Position)
    (draggables : Float64.DraggableDimensionMap) (indexChange : Double) :
    Float64.shiftDraggables amount draggables indexChange =
      collectBy (fun d : Float64.DraggableDimension => d.descriptor.id) []
        (((JSObject.keys draggables).filterMap (fun id => JSObject.get draggables id)).map
          (Float64.shiftDimension amount indexChange)) := rfl

/-- On doubles, shifting one dimension twice is shifting it once by the sums,
when none of the additions on its border-box edges and index rounds. -/
theorem shiftDimension_twice_of_exact (a b : Float64.Position) (d1 d2 : Double)
    (dimension : Float64.DraggableDimension)
    (h : Float64.ShiftsExactly a b d1 d2 dimension) :
    Float64.shiftDimension b d2 (Float64.shiftDimension a d1 dimension) =
      Float64.shiftDimension (Float64.add a b) (d1 + d2) dimension := by
  obtain ⟨htop, hbottom, hleft, hright, hindex⟩ := h
  have hbox : Float64.offsetByPosition
      (Float64.offsetByPosition dimension.client.borderBox.toSpacing a) b =
      Float64.offsetByPosition dimension.client.borderBox.toSpacing (Float64.add a b) := by
    simp only [Float64.offsetByPosition, Float64.add, Float64.Rect.toSpacing,
      Float64.Spacing.mk.injEq]
    exact ⟨Double.add_assoc_of_exact _ _ _ htop, Double.add_assoc_of_exact _ _ _ hright,
      Double.add_assoc_of_exact _ _ _ hbottom, Double.add_assoc_of_exact _ _ _ hleft⟩
  have hidx := Double.add_assoc_of_exact _ _ _ hindex
  simp only [Float64.shiftDimension, Float64.createBox, Float64.getRect,
    Float64.Rect.toSpacing, Option.getD_some]
  simp only [Float64.Rect.toSpacing] at hbox
  rw [hbox, hidx]

set_option maxRecDepth 100000

/-- C10, as the code has it: for every draggable map `M`, amounts `a` and `b` and
index changes `d1` and `d2` such that for every dimension of `M` none of the
additions on its border-box edges and on its index rounds (neither in shifting
by `a`, `d1` and then by `b`, `d2`, nor in adding `a + b`, `d1 + d2` and
shifting by the sums), `shiftDraggables(shiftDraggables(M, a, d1), b, d2)`
holds under every draggable id the same dimension, so the same border box and
the same descriptor index, as `shiftDraggables(M, a + b, d1 + d2)`. -/
theorem shiftDraggables_additive_of_exact (M : Float64.DraggableDimensionMap)
    (a b : Float64.Position) (d1 d2 : Double)
    (hexact : ∀ entry ∈ M, Float64.ShiftsExactly a b d1 d2 entry.2) (id : DraggableId) :
    JSObject.get (Float64.shiftDraggables b (Float64.shiftDraggables a M d1) d2) id =
      JSObject.get (Float64.shiftDraggables (Float64.add a b) M (d1 + d2)) id ∧
    (JSObject.get (Float64.shiftDraggables b (Float64.shiftDraggables a M d1) d2) id).map
        (fun dimension => (dimension.client.borderBox, dimension.descriptor.index)) =
      (JSObject.get (Float64.shiftDraggables (Float64.add a b) M (d1 + d2)) id).map
        (fun dimension => (dimension.client.borderBox, dimension.descriptor.index)) := by
  have key : JSObject.get (Float64.shiftDraggables b (Float64.shiftDraggables a M d1) d2) id =
      JSObject.get (Float64.shiftDraggables (Float64.add a b) M (d1 + d2)) id := by
    have hwk : WellKeyedBy (fun d : Float64.DraggableDimension => d.descriptor.id)
        (Float64.shiftDraggables a M d1) := by
      rw [shiftDraggables_eq_collectBy]
      exact wellKeyedBy_collectBy (fun d : Float64.DraggableDimension => d.descriptor.id) _ []
        (wellKeyedBy_nil (fun d : Float64.DraggableDimension => d.descriptor.id))
    rw [shiftDraggables_eq_collectBy b, JSObject.values_of_nodup _ hwk.1]
    rw [get_collectBy_map (fun d : Float64.DraggableDimension => d.descriptor.id) (Float64.shiftDimension b d2)
      (fun _ => rfl) ((Float64.shiftDraggables a M d1).map Prod.snd) [] [] (fun _ => rfl) id]
    rw [get_collectBy_values (fun d : Float64.DraggableDimension => d.descriptor.id) _ hwk [] id]
    rw [shiftDraggables_eq_collectBy a, shiftDraggables_eq_collectBy (Float64.add a b)]
    rw [get_collectBy_map (fun d : Float64.DraggableDimension => d.descriptor.id) (Float64.shiftDimension a d1)
      (fun _ => rfl) _ [] [] (fun _ => rfl) id]
    rw [get_collectBy_map (fun d : Float64.DraggableDimension => d.descriptor.id) (Float64.shiftDimension (Float64.add a b) (d1 + d2))
      (fun _ => rfl) _ [] [] (fun _ => rfl) id]
    cases hget : JSObject.get (collectBy (fun d : Float64.DraggableDimension => d.descriptor.id)
        [] ((JSObject.keys M).filterMap (fun id => JSObject.get M id))) id with
    | none => rfl
    | some d =>
      have hd : d ∈ (JSObject.keys M).filterMap (fun id => JSObject.get M id) := by
        rcases get_collectBy_mem (fun d : Float64.DraggableDimension => d.descriptor.id) _ [] id d hget
          with h1 | h1
        · exact h1
        · simp [JSObject.get] at h1
      obtain ⟨inputKey, hentry⟩ := mem_values_entry M d hd
      have hshift := shiftDimension_twice_of_exact a b d1 d2 d (hexact (inputKey, d) hentry)
      simp [JSObject.get, hshift]
  exact ⟨key, by rw [key]⟩

/-- Witness of C10: two draggables at whole pixels (tops 10 and 30, indices 0
and 1), shifted by `(0, 30)` with index change 1 and then by `(0, 5)` with
index change 2, and shifted once by the sums. -/
theorem shiftDraggables_additive_of_exact_witness :
    JSObject.get (Float64.shiftDraggables { x := 0, y := 5 }
        (Float64.shiftDraggables { x := 0, y := 30 } Float64.wholeDraggables 1) 2) "inhome2" =
      JSObject.get (Float64.shiftDraggables
        (Float64.add { x := 0, y := 30 } { x := 0, y := 5 }) Float64.wholeDraggables (1 + 2))
        "inhome2" :=
  (shiftDraggables_additive_of_exact Float64.wholeDraggables { x := 0, y := 30 }
    { x := 0, y := 5 } 1 2 (by decide) "inhome2").1

/-- Counterexample to C10 as stated: one draggable with border-box top `0.1`,
shifted by `(0, 0.2)` and then by `(0, 0.3)`, has border-box top
`(0.1 + 0.2) + 0.3 = 0.6000000000000001`, the double `5404319552844596 * 2^-53`;
shifted once by the sum `(0, 0.2 + 0.3)` it has border-box top
`0.1 + 0.5 = 0.6`, the double `5404319552844595 * 2^-53`. -/
theorem shiftDraggables_additive_counterexample :
    (JSObject.get (Float64.shiftDraggables { x := 0, y := Float64.threeTenths }
        (Float64.shiftDraggables { x := 0, y := Float64.fifth } Float64.fractionalDraggables 0)
        0) "a").map (fun dimension => dimension.client.borderBox.top) =
      some (Double.ofParts 5404319552844596 (-53)) ∧
    (JSObject.get (Float64.shiftDraggables
        (Float64.add { x := 0, y := Float64.fifth } { x := 0, y := Float64.threeTenths })
        Float64.fractionalDraggables (0 + 0)) "a").map
        (fun dimension => dimension.client.borderBox.top) =
      some (Double.ofParts 5404319552844595 (-53)) ∧
    Double.ofParts 5404319552844596 (-53) ≠ Double.ofParts 5404319552844595 (-53) := by
  refine ⟨by decide, by decide, by decide⟩

theorem offset_createBox_double (borderBox : Float64.Spacing)
    (margin border padding : Option Float64.Spacing) (change : Float64.Position) :
    Float64.offset (Float64.createBox borderBox margin border padding) change =
      Float64.createBox (Float64.offsetByPosition borderBox change) margin border padding := by
  cases margin <;> cases border <;> cases padding <;> rfl

/-- C14, as the code has it: for every client box `b` (the box `createBox` builds
from a border box of doubles and margin, border and padding spacings) and every
scroll position `s` such that adding `s` to the four border-box edges does not
round, `offset(withScroll(b, s), negate(s))` is `b`: border box and all
rectangles derived from it are those of `b`. -/
theorem offset_withScroll_negate_of_exact (borderBox : Float64.Spacing)
    (margin border padding : Option Float64.Spacing) (s : Float64.Position)
    (hexact : Float64.MovesExactly borderBox s) :
    Float64.offset (Float64.withScroll (Float64.createBox borderBox margin border padding) s)
        (Float64.negate s) =
      Float64.createBox borderBox margin border padding := by
  obtain ⟨⟨rtop, rbottom, rleft, rright⟩, etop, ebottom, eleft, eright⟩ := hexact
  have hback : Float64.offsetByPosition (Float64.offsetByPosition borderBox s)
      (Float64.negate s) = borderBox := by
    cases hb : borderBox with
    | mk top right bottom left =>
      rw [hb] at rtop rbottom rleft rright etop ebottom eleft eright
      simp only [Float64.offsetByPosition, Float64.negate, Float64.Spacing.mk.injEq]
      exact ⟨Double.add_neg_cancel_of_exact _ _ rtop etop,
        Double.add_neg_cancel_of_exact _ _ rright eright,
        Double.add_neg_cancel_of_exact _ _ rbottom ebottom,
        Double.add_neg_cancel_of_exact _ _ rleft eleft⟩
  rw [Float64.withScroll, offset_createBox_double, offset_createBox_double, hback]

/-- Witness of C14: the box at `{top: 10, right: 100, bottom: 20, left: 0}` and
the preset window scroll `(50, 100)`. -/
theorem offset_withScroll_negate_of_exact_witness :
    Float64.offset
        (Float64.withScroll
          (Float64.createBox { top := 10, right := 100, bottom := 20, left := 0 }
            none none none)
          { x := 50, y := 100 })
        (Float64.negate { x := 50, y := 100 }) =
      Float64.createBox { top := 10, right := 100, bottom := 20, left := 0 } none none none :=
  offset_withScroll_negate_of_exact { top := 10, right := 100, bottom := 20, left := 0 }
    none none none { x := 50, y := 100 } (by decide)

/-- Counterexample to C14 as stated: for the box at
`{top: 0.1, right: 100, bottom: 20, left: 0}` and the scroll `(0, 0.2)`, the
border-box top after `withScroll` and `offset` by the negated scroll is
`(0.1 + 0.2) + (-0.2) = 0.10000000000000003`, the double
`3602879701896398 * 2^-55`, and not `0.1`, the double `3602879701896397 * 2^-55`:
the box that comes back is not the box that went in. -/
theorem offset_withScroll_negate_counterexample :
    (Float64.offset
        (Float64.withScroll
          (Float64.createBox
            { top := Float64.tenth, right := 100, bottom := 20, left := 0 } none none none)
          { x := 0, y := Float64.fifth })
        (Float64.negate { x := 0, y := Float64.fifth })).borderBox.top =
      Double.ofParts 3602879701896398 (-55) ∧
    (Float64.createBox
        { top := Float64.tenth, right := 100, bottom := 20, left := 0 }
        none none none).borderBox.top = Double.ofParts 3602879701896397 (-55) ∧
    Float64.offset
        (Float64.withScroll
          (Float64.createBox
            { top := Float64.tenth, right := 100, bottom := 20, left := 0 } none none none)
          { x := 0, y := Float64.fifth })
        (Float64.negate { x := 0, y := Float64.fifth }) ≠
      Float64.createBox
        { top := Float64.tenth, right := 100, bottom := 20, left := 0 } none none none := by
  refine ⟨by decide, by decide, by decide⟩

end Dnd
